import Mathlib

/-!
# Verification of the registration and type-mapping engine of django-socio-grpc

This file shallowly embeds `django_socio_grpc/utils/registry_singleton.py`:
the process-wide `RegistrySingleton` that maps Django/DRF field types to
proto types, registers serializers as proto messages, and assembles
per-controller method tables.

Modelling conventions:
* Python `OrderedDict`s become association lists (`List (String × _)`);
  assignment `d[k] = v` replaces in place when the key exists and appends
  otherwise (`alSet`), matching `OrderedDict` semantics.
* Python exceptions become an `Except` value threaded together with the
  registry state: a raising call returns `(.error e, st)` where `st` is the
  state at raise time (mutations made before the raise are kept, as for the
  mutable singleton in Python).
* The recursion `register_serializer_as_message_if_not_exist` ↔
  `get_proto_type` (through nested serializers) is run with explicit fuel so
  that every definition is executable and kernel-reducible; all theorems are
  conditioned on the run not exhausting fuel (`.ok` results), and concrete
  witnesses supply concrete fuel.
* DRF field instances are classified into the branch of the
  `isinstance`-dispatch of `get_proto_type` that they would take in Python
  (`FieldKind`), each constructor carrying exactly the data that branch
  reads.  Every field also carries its Python class name (used by the
  `type_mapping` lookups) and its `read_only` / `write_only` flags.
-/

namespace DSG

/-! ## Association lists (Python ordered dicts) -/

/-- First value bound to key `k`, like Python `d[k]` / `d.get(k)`. -/
def alFind {α : Type} (l : List (String × α)) (k : String) : Option α :=
  match l with
  | [] => none
  | (k', v) :: rest => if k' = k then some v else alFind rest k

/-- `d[k] = v` on an ordered dict: replace in place if present, else append. -/
def alSet {α : Type} (l : List (String × α)) (k : String) (v : α) :
    List (String × α) :=
  match l with
  | [] => [(k, v)]
  | (k', v') :: rest => if k' = k then (k, v) :: rest else (k', v') :: alSet rest k v

theorem alFind_alSet {α : Type} (l : List (String × α)) (k k' : String) (v : α) :
    alFind (alSet l k v) k' = if k' = k then some v else alFind l k' := by
  induction l with
  | nil =>
    by_cases h : k' = k
    · simp [alSet, alFind, h]
    · simp [alSet, alFind, h]
      exact fun hh => h hh.symm
  | cons p rest ih =>
    obtain ⟨k₀, v₀⟩ := p
    by_cases h0 : k₀ = k
    · subst h0
      by_cases h1 : k' = k₀
      · subst h1; simp [alSet, alFind]
      · simp [alSet, alFind, h1, show ¬k₀ = k' from fun hh => h1 hh.symm]
    · by_cases h1 : k₀ = k'
      · subst h1
        simp [alSet, alFind, h0, show ¬k₀ = k from h0]
      · simp [alSet, alFind, h0, h1, ih]

theorem alFind_mem {α : Type} (l : List (String × α)) (k : String) (v : α)
    (h : alFind l k = some v) : (k, v) ∈ l := by
  induction l with
  | nil => simp [alFind] at h
  | cons p rest ih =>
    obtain ⟨k₀, v₀⟩ := p
    by_cases h0 : k₀ = k
    · subst h0; simp [alFind] at h; simp [h]
    · simp [alFind, h0] at h
      exact List.mem_cons_of_mem _ (ih h)

/-! ## Character-list string primitives

All strings appearing in the registry are short ASCII names, so we work on
`String.data` (the underlying `List Char`), which the kernel evaluates
directly. -/

/-- `s.startswith p` from Python. -/
def startsWithS (s p : String) : Bool := p.data.isPrefixOf s.data

/-- `s.endswith p` from Python. -/
def endsWithS (s p : String) : Bool := p.data.isSuffixOf s.data

/-- `p in s` from Python (substring containment). -/
def containsSub (s p : String) : Bool :=
  (List.range (s.data.length + 1)).any (fun i => p.data.isPrefixOf (s.data.drop i))

/-- `len(s)`. -/
def strLen (s : String) : Nat := s.data.length

/-- `s[n:]` for `n ≥ 0`. -/
def dropChars (s : String) (n : Nat) : String := ⟨s.data.drop n⟩

/-- `s[:-n]` from Python.  For `n = 0` this is `s[:0] = ""` (the Python
`-0 = 0` quirk), otherwise it removes the last `n` characters. -/
def pyNegSliceTake (s : String) (n : Nat) : String :=
  if n = 0 then "" else ⟨s.data.take (s.data.length - n)⟩

/-- `s[-n:]` from Python.  For `n = 0` this is `s[0:] = s`, otherwise the
last `n` characters. -/
def pyNegSliceDrop (s : String) (n : Nat) : String :=
  if n = 0 then s else ⟨s.data.drop (s.data.length - n)⟩

/-- Replace the rightmost occurrence of `old` (searching from the right, as
`str.rsplit(old, 1)` does); `none` when `old` does not occur. -/
def rreplaceAux (old new : List Char) : List Char → Option (List Char)
  | [] => none
  | c :: rest =>
    match rreplaceAux old new rest with
    | some r => some (c :: r)
    | none =>
      if old.isPrefixOf (c :: rest) then some (new ++ (c :: rest).drop old.length)
      else none

/-- Modelled from the spec: the helper `rreplace` lives in
`django_socio_grpc/utils/tools.py`, which is not under `src/`.  Per §4.4 of
the spec the Naming Engine strips a recognized serializer-class suffix
"once, from the right"; `rreplace s old new` accordingly replaces the
rightmost occurrence of `old` in `s` with `new` (the `count = 1` case of the
usual Python `rreplace` idiom built on `str.rsplit`), returning `s`
unchanged when `old` does not occur. -/
def rreplace (s old new : String) : String :=
  match rreplaceAux old.data new.data s.data with
  | some r => ⟨r⟩
  | none => s

/-! ## Registry data model (§3 of the spec) -/

/-- One `(field_name, type_descriptor)` list: the value stored under a
message name in `registered_messages`. -/
abbrev FieldList := List (String × String)

/-- `{"is_stream": bool, "message": name}`. -/
structure StreamSpec where
  is_stream : Bool
  message : String
  deriving DecidableEq, Repr

/-- One entry of a controller's method table. -/
structure MethodEntry where
  request : StreamSpec
  response : StreamSpec
  deriving DecidableEq, Repr

abbrev ControllerEntry := List (String × MethodEntry)

/-- `{"registered_controllers": ..., "registered_messages": ...}`. -/
structure AppEntry where
  registered_controllers : List (String × ControllerEntry)
  registered_messages : List (String × FieldList)
  deriving DecidableEq, Repr

/-- `RegistrySingleton.registered_app`. -/
abbrev Registry := List (String × AppEntry)

/-- Relationship entry of DRF `get_field_info(model).relationships`:
`to_many` plus the attributes of the related model (attribute name ↦ class
name of the underlying model field, i.e.
`slug_defered_attribute.field.__class__.__name__`). -/
structure RelInfo where
  toMany : Bool
  relatedAttrs : List (String × String)

/-- The slice of a Django model consulted by the registry: the name of its
primary-key field (`model_meta.get_model_pk(model).name`) and its
relationships keyed by field name. -/
structure ModelInfo where
  pkName : String
  relationships : List (String × RelInfo)

/-- The `Meta` inner class of a serializer. -/
structure SMeta where
  model : Option ModelInfo
  message_list_attr : Option String

/-- Return annotations recognised by `python_type_to_proto_type` in
`get_proto_type_from_inspect`. -/
inductive PyType where
  | pyInt | pyStr | pyBool | pyFloat | pyList | pyDict | pyBytes
  | pyListT | pyDictT | pyListInt | pyListStr | pyListBool
  | pyListTuple | pyListDict
  deriving DecidableEq, Repr

mutual
/-- A DRF field instance as seen by the registry: its Python class name,
its `read_only` / `write_only` flags, whether its class derives
`ReadOnlyField`, and the `isinstance` branch of `get_proto_type` it falls
into. -/
inductive Field where
  | mk (className : String) (readOnly writeOnly isReadOnlyClass : Bool)
      (kind : FieldKind)

/-- The branch of the `isinstance` dispatch of `get_proto_type` a field
takes (the first matching test in source order), carrying the data that
branch reads. -/
inductive FieldKind where
  /-- `isinstance(field_type, str)`: a custom field given directly as a
  proto type name; returned verbatim. -/
  | fstr (s : String)
  /-- `issubclass(..., HiddenField)`: skipped during message registration;
  falls through every later branch of `get_proto_type`. -/
  | hidden
  /-- `issubclass(..., ListProtoSerializer)`: carries `field_type.child`. -/
  | listProto (child : Serializer)
  /-- `issubclass(..., BaseProtoSerializer)` (and not a list serializer). -/
  | nestedProto (child : Serializer)
  /-- `issubclass(..., SlugRelatedField)`: carries `slug_field`. -/
  | slug (slugField : String)
  /-- `issubclass(..., ManyRelatedField)`: carries `child_relation`. -/
  | manyRelated (child : Field)
  /-- `issubclass(..., RelatedField)`: carries the class name of
  `pk_field` when set, else the class name of the pk of
  `queryset.model`. -/
  | related (pkFieldClass : Option String) (querysetModelPkClass : String)
  /-- `issubclass(..., ListSerializer)` (not a `ListProtoSerializer`). -/
  | listSer
  /-- `issubclass(..., ModelField)`: carries
  `model_field.__class__.__name__`. -/
  | modelField (modelFieldClass : String)
  /-- `issubclass(..., ListField)`: carries
  `child.__class__.__name__`. -/
  | listField (childClass : String)
  /-- `issubclass(..., DictField)`. -/
  | dictField
  /-- `issubclass(..., BaseSerializer)` (none of the above). -/
  | baseSer
  /-- `issubclass(..., SerializerMethodField)`: carries `method_name`. -/
  | methodField (methodName : Option String)
  /-- No branch matched: the `type_mapping` default computed from the class
  name stands. -/
  | plain

/-- A serializer instance: its class name, `Meta`, `get_fields()` in
declaration order, and its methods (method name ↦ `some t` when the method
exists with return annotation `t`, `some none` meaning it exists without a
return annotation). -/
inductive Serializer where
  | mk (className : String) (meta : SMeta)
      (fields : List (String × Field))
      (methods : List (String × Option PyType))
end

def Field.className : Field → String
  | .mk c _ _ _ _ => c

def Field.readOnly : Field → Bool
  | .mk _ r _ _ _ => r

def Field.writeOnly : Field → Bool
  | .mk _ _ w _ _ => w

def Field.isReadOnlyClass : Field → Bool
  | .mk _ _ _ ro _ => ro

def Field.kind : Field → FieldKind
  | .mk _ _ _ _ k => k

def Serializer.className : Serializer → String
  | .mk c _ _ _ => c

def Serializer.meta : Serializer → SMeta
  | .mk _ m _ _ => m

def Serializer.fields : Serializer → List (String × Field)
  | .mk _ _ f _ => f

def Serializer.methods : Serializer → List (String × Option PyType)
  | .mk _ _ _ m => m

/-- `grpc_settings` as consulted by the registry:
`SEPARATE_READ_WRITE_MODEL` and whether `DEFAULT_PAGINATION_CLASS` is set
(only `is not None` is ever asked). -/
structure GrpcSettings where
  SEPARATE_READ_WRITE_MODEL : Bool
  has_DEFAULT_PAGINATION_CLASS : Bool

/-- A service instance as consulted by the registry. -/
structure Service where
  /-- `service_class.__module__` (the app name is its first dotted part). -/
  moduleName : String
  /-- `get_service_name()`. -/
  serviceName : String
  /-- `pagination_class` (`some` when a class is set; a class object is
  always truthy). -/
  paginationClass : Option Unit
  /-- `get_lookup_request_field()`. -/
  lookupRequestField : String

/-- Python truthiness of an optional string (`if s:`): `None` and `""` are
falsy. -/
def pyStrOpt : Option String → Option String
  | none => none
  | some s => if s = "" then none else some s

/-- Python truthiness of an `is_request` value that may be `None`. -/
def optTruthy : Option Bool → Bool
  | none => false
  | some b => b

/-! ## Constants and the type vocabulary -/

def DEFAULT_LIST_FIELD_NAME : String := "results"
def REQUEST_SUFFIX : String := "Request"
def RESPONSE_SUFFIX : String := "Response"

/-- `RegistrySingleton.type_mapping` (Django ≥ 3: `JSONField` and
`PositiveBigIntegerField` present). -/
def type_mapping : List (String × String) :=
  [ ("AutoField", "int32"),
    ("SmallIntegerField", "int32"),
    ("IntegerField", "int32"),
    ("BigIntegerField", "int64"),
    ("PositiveSmallIntegerField", "int32"),
    ("PositiveIntegerField", "int32"),
    ("FloatField", "float"),
    ("DecimalField", "double"),
    ("BooleanField", "bool"),
    ("NullBooleanField", "bool"),
    ("DateField", "string"),
    ("TimeField", "string"),
    ("DateTimeField", "string"),
    ("DurationField", "string"),
    ("CharField", "string"),
    ("TextField", "string"),
    ("EmailField", "string"),
    ("SlugField", "string"),
    ("URLField", "string"),
    ("UUIDField", "string"),
    ("GenericIPAddressField", "string"),
    ("FilePathField", "string"),
    ("BinaryField", "bytes"),
    ("Field", "string"),
    ("JSONField", "google.protobuf.Struct"),
    ("PositiveBigIntegerField", "int64") ]

/-- `type_mapping.get(k, d)`. -/
def typeMappingGet (k d : String) : String := (alFind type_mapping k).getD d

/-- `python_type_to_proto_type` of `get_proto_type_from_inspect`. -/
def pyTypeToProtoType : PyType → String
  | .pyInt => "int32"
  | .pyStr => "string"
  | .pyBool => "bool"
  | .pyFloat => "float"
  | .pyList => "repeated string"
  | .pyDict => "google.protobuf.Struct"
  | .pyBytes => "bytes"
  | .pyListT => "repeated string"
  | .pyDictT => "google.protobuf.Struct"
  | .pyListInt => "repeated int32"
  | .pyListStr => "repeated string"
  | .pyListBool => "repeated bool"
  | .pyListTuple => "repeated google.protobuf.Struct"
  | .pyListDict => "repeated google.protobuf.Struct"

/-- Errors: `RegisterServiceException msg`, a raw Python `KeyError` (dict
access on a missing key), and exhaustion of the modelling fuel. -/
inductive RegErr where
  | registerService (msg : String)
  | keyError
  | fuelExhausted
  deriving DecidableEq, Repr

/-! ## Registry primitives

Each primitive returns `(result, state)`; a `KeyError` on a missing dict
key leaves the state unchanged, as in Python. -/

/-- `registered_app[app]["registered_messages"][n] = fl`. -/
def setMsg (app n : String) (fl : FieldList) (st : Registry) :
    Except RegErr Unit × Registry :=
  match alFind st app with
  | none => (.error .keyError, st)
  | some e =>
    (.ok (), alSet st app
      { e with registered_messages := alSet e.registered_messages n fl })

/-- `registered_app[app]["registered_messages"][n].append(p)`. -/
def appendMsg (app n : String) (p : String × String) (st : Registry) :
    Except RegErr Unit × Registry :=
  match alFind st app with
  | none => (.error .keyError, st)
  | some e =>
    match alFind e.registered_messages n with
    | none => (.error .keyError, st)
    | some fl =>
      (.ok (), alSet st app
        { e with registered_messages := alSet e.registered_messages n (fl ++ [p]) })

/-- `registered_app[app]["registered_controllers"][c][m] = entry`
(the controller must already exist, as in `register_default_method`). -/
def setMethodEntry (app c m : String) (entry : MethodEntry) (st : Registry) :
    Except RegErr Unit × Registry :=
  match alFind st app with
  | none => (.error .keyError, st)
  | some e =>
    match alFind e.registered_controllers c with
    | none => (.error .keyError, st)
    | some ctrl =>
      (.ok (), alSet st app
        { e with registered_controllers :=
            alSet e.registered_controllers c (alSet ctrl m entry) })

/-- `if app_name not in self.registered_app: self.registered_app[app_name] = {...}`. -/
def ensureApp (app : String) (st : Registry) : Registry :=
  match alFind st app with
  | some _ => st
  | none => alSet st app ⟨[], []⟩

/-- `registered_app[app]["registered_messages"].get(n)` (read-only). -/
def msgLookup (st : Registry) (app n : String) : Option FieldList :=
  (alFind st app).bind fun e => alFind e.registered_messages n

/-- The whole controller table of an app (read-only). -/
def ctrls (st : Registry) (app : String) : Option (List (String × ControllerEntry)) :=
  (alFind st app).map fun e => e.registered_controllers

/-- `registered_app[app]["registered_controllers"][c].get(m)` (read-only). -/
def methodLookup (st : Registry) (app c m : String) : Option MethodEntry :=
  (alFind st app).bind fun e =>
    (alFind e.registered_controllers c).bind fun ctrl => alFind ctrl m

/-! ## Pure helpers of `RegistrySingleton` -/

/-- `get_message_name_from_field_or_serializer_instance`, taking the class
name of the instance.  `isRequest` is the truthiness of the Python
`is_request` argument. -/
def get_message_name (cfg : GrpcSettings) (className : String)
    (isRequest : Bool) (appendType : Bool) : String :=
  let messageName :=
    if containsSub className "ProtoSerializer" then rreplace className "ProtoSerializer" ""
    else if containsSub className "Serializer" then rreplace className "Serializer" ""
    else className
  if cfg.SEPARATE_READ_WRITE_MODEL && appendType then
    messageName ++ (if isRequest then REQUEST_SUFFIX else RESPONSE_SUFFIX)
  else messageName

/-- `field_type_is_read_only`. -/
def field_type_is_read_only (f : Field) : Bool :=
  f.isReadOnlyClass || f.readOnly

/-- `field_type_is_write_only`. -/
def field_type_is_write_only (f : Field) : Bool :=
  f.writeOnly

/-- The `continue` conditions of the field loop of
`register_serializer_as_message_if_not_exist`, in source order. -/
def shouldSkipField (cfg : GrpcSettings) (pkName : Option String)
    (isRequest : Bool) (fieldName : String) (f : Field) : Bool :=
  match f.kind with
  | .hidden => true
  | _ =>
    if cfg.SEPARATE_READ_WRITE_MODEL && !(pkName == some fieldName) then
      if isRequest && field_type_is_read_only f then true
      else if !isRequest && field_type_is_write_only f then true
      else false
    else false

/-- Error message of `get_proto_type_from_inspect` (URL pointers kept,
wording as in source). -/
def inspectErrMsg (serializerName fieldName : String) : String :=
  "You are trying to register the serializer " ++ serializerName ++
  " with a SerializerMethodField on the field " ++ fieldName ++
  ". But the method associated doesnt have a return annotations. Please look at the example: https://github.com/socotecio/django-socio-grpc/blob/master/django_socio_grpc/tests/fakeapp/serializers.py#L83. And the python doc: https://docs.python.org/3.8/library/typing.html"

/-- `get_proto_type_from_inspect`: look up the accessor method, degrade to
`"string"` when it does not exist, raise when it exists without a return
annotation, else translate its annotation. -/
def get_proto_type_from_inspect (methodName? : Option String)
    (fieldName : String) (ser : Serializer) : Except RegErr String :=
  let methodName := methodName?.getD ("get_" ++ fieldName)
  match alFind ser.methods methodName with
  | none => .ok "string"
  | some none => .error (.registerService (inspectErrMsg ser.className fieldName))
  | some (some t) => .ok (pyTypeToProtoType t)

/-- `get_pk_from_related_field`: `pk_field` class name when set, else the
class name of the pk of `queryset.model`, through `type_mapping` with the
`"related_not_found"` default. -/
def get_pk_from_related_field (pkFieldClass : Option String)
    (querysetModelPkClass : String) : String :=
  let typeName := pkFieldClass.getD querysetModelPkClass
  typeMappingGet typeName "related_not_found"

/-- `get_pk_from_slug_related_field`: degrade to `"string"` when the
serializer has no `Meta.model`, when the field name is not a relationship
of the model, or when the related model lacks the slug attribute; otherwise
map the slug attribute's field class through `type_mapping` (default
`"slug_field type not found"`), wrapping in `repeated` when `to_many`. -/
def get_pk_from_slug_related_field (slugField fieldName : String)
    (ser : Serializer) : String :=
  match ser.meta.model with
  | none => "string"
  | some m =>
    match alFind m.relationships fieldName with
    | none => "string"
    | some rel =>
      match alFind rel.relatedAttrs slugField with
      | none => "string"
      | some slugFieldClassName =>
        let protoType := typeMappingGet slugFieldClassName "slug_field type not found"
        if rel.toMany then "repeated " ++ protoType else protoType

/-- `get_list_response_field_name_from_serializer_instance`. -/
def get_list_response_field_name (ser : Serializer) : String :=
  match pyStrOpt ser.meta.message_list_attr with
  | some a => a
  | none => DEFAULT_LIST_FIELD_NAME

/-! ## The recursive core

`register_serializer_as_message_if_not_exist` and `get_proto_type` are
mutually recursive through nested serializers; we express both (plus the
field loop of the former) as one fuel-indexed interpreter `run` so that all
definitions compute by kernel reduction. -/

/-- A pending call of the recursive core. -/
inductive Req where
  /-- `register_serializer_as_message_if_not_exist(app, ser, message_name, is_request)`;
  the result is the message name. -/
  | regSer (app : String) (ser : Serializer) (messageName : Option String)
      (isRequest : Bool)
  /-- The field loop of `register_serializer_as_message_if_not_exist` over
  the remaining fields (the result string is unused, `""`). -/
  | regFields (app msgName : String) (pkName : Option String) (isRequest : Bool)
      (ser : Serializer) (flds : List (String × Field))
  /-- `get_proto_type(app, f, field_name, ser, is_request)`; the result is
  the proto type descriptor. -/
  | protoType (app : String) (f : Field) (fieldName : String) (ser : Serializer)
      (isRequest : Option Bool)

/-- Fuel-indexed interpreter for the recursive core.  Every recursive call
consumes one unit of fuel; `fuelExhausted` never occurs in the theorems
below, which all run with enough fuel. -/
def run (cfg : GrpcSettings) : Nat → Req → Registry → Except RegErr String × Registry
  | 0, _, st => (.error .fuelExhausted, st)
  | fuel + 1, .regSer app ser messageName? isRequest, st =>
    let messageName :=
      messageName?.getD (get_message_name cfg ser.className isRequest true)
    let pkName := ser.meta.model.map ModelInfo.pkName
    match alFind st app with
    | none => (.error .keyError, st)
    | some appEntry =>
      if (alFind appEntry.registered_messages messageName).isSome then
        (.ok messageName, st)
      else
        let newMsgs := alSet appEntry.registered_messages messageName []
        let st1 := alSet st app { appEntry with registered_messages := newMsgs }
        match run cfg fuel (.regFields app messageName pkName isRequest ser ser.fields) st1 with
        | (.ok _, st2) => (.ok messageName, st2)
        | (.error e, st2) => (.error e, st2)
  | fuel + 1, .regFields app msgName pkName isRequest ser flds, st =>
    match flds with
    | [] => (.ok "", st)
    | (fieldName, f) :: rest =>
      if shouldSkipField cfg pkName isRequest fieldName f then
        run cfg fuel (.regFields app msgName pkName isRequest ser rest) st
      else
        match run cfg fuel (.protoType app f fieldName ser (some isRequest)) st with
        | (.error e, st1) => (.error e, st1)
        | (.ok t, st1) =>
          match appendMsg app msgName (fieldName, t) st1 with
          | (.error e, st2) => (.error e, st2)
          | (.ok _, st2) => run cfg fuel (.regFields app msgName pkName isRequest ser rest) st2
  | fuel + 1, .protoType app f fieldName ser isRequest, st =>
    match f.kind with
    | .fstr s => (.ok s, st)
    | .hidden => (.ok (typeMappingGet f.className "string"), st)
    | .plain => (.ok (typeMappingGet f.className "string"), st)
    | .listProto child =>
      let t := "repeated " ++
        get_message_name cfg child.className (optTruthy isRequest) true
      (match run cfg fuel (.regSer app child none (optTruthy isRequest)) st with
       | (.ok _, st1) => (.ok t, st1)
       | (.error e, st1) => (.error e, st1))
    | .nestedProto child =>
      let t := get_message_name cfg child.className (optTruthy isRequest) true
      (match run cfg fuel (.regSer app child none (optTruthy isRequest)) st with
       | (.ok _, st1) => (.ok t, st1)
       | (.error e, st1) => (.error e, st1))
    | .slug slugField =>
      (.ok (get_pk_from_slug_related_field slugField fieldName ser), st)
    | .manyRelated child =>
      (match run cfg fuel (.protoType app child fieldName ser isRequest) st with
       | (.error e, st1) => (.error e, st1)
       | (.ok childProtoType, st1) =>
         let childProtoType :=
           if startsWithS childProtoType "repeated " then dropChars childProtoType 9
           else childProtoType
         (.ok ("repeated " ++ childProtoType), st1))
    | .related pkFieldClass querysetModelPkClass =>
      (.ok (get_pk_from_related_field pkFieldClass querysetModelPkClass), st)
    | .listSer => (.ok "repeated google.protobuf.Struct", st)
    | .modelField modelFieldClass =>
      (.ok (typeMappingGet modelFieldClass "string"), st)
    | .listField childClass =>
      (.ok ("repeated " ++ typeMappingGet childClass "string"), st)
    | .dictField => (.ok "google.protobuf.Struct", st)
    | .baseSer => (.ok "google.protobuf.Struct", st)
    | .methodField methodName? =>
      (match get_proto_type_from_inspect methodName? fieldName ser with
       | .ok t => (.ok t, st)
       | .error e => (.error e, st))

/-- `register_serializer_as_message_if_not_exist`. -/
def register_serializer_as_message_if_not_exist (cfg : GrpcSettings) (fuel : Nat)
    (app : String) (ser : Serializer) (messageName : Option String)
    (isRequest : Bool) (st : Registry) : Except RegErr String × Registry :=
  run cfg fuel (.regSer app ser messageName isRequest) st

/-- `get_proto_type`. -/
def get_proto_type (cfg : GrpcSettings) (fuel : Nat) (app : String) (f : Field)
    (fieldName : String) (ser : Serializer) (isRequest : Option Bool)
    (st : Registry) : Except RegErr String × Registry :=
  run cfg fuel (.protoType app f fieldName ser isRequest) st

/-! ## Conventional (non-custom) generation path -/

/-- `KnowMethods.get_methods_no_stream()`. -/
def knowMethodsNoStream : List String :=
  ["List", "Create", "Retrieve", "Update", "PartialUpdate", "Destroy"]

/-- `KnowMethods.get_as_list()` rendered for the error message of
`register_default_method`. -/
def knowMethodsMsg : String :=
  "List, Create, Retrieve, Update, PartialUpdate, Destroy, Stream"

/-- `register_default_method`: record the method entry with the per-kind
stream flags (response streams only for `Stream`), raising on a method
outside the supported set. -/
def register_default_method (app controllerName method requestMessageName
    responseMessageName : String) (st : Registry) : Except RegErr Unit × Registry :=
  if method ∈ knowMethodsNoStream then
    setMethodEntry app controllerName method
      ⟨⟨false, requestMessageName⟩, ⟨false, responseMessageName⟩⟩ st
  else if method = "Stream" then
    setMethodEntry app controllerName method
      ⟨⟨false, requestMessageName⟩, ⟨true, responseMessageName⟩⟩ st
  else
    (.error (.registerService
      ("You are registering a service with the method " ++ method ++
       " but this methods does not have a decorator and is not in our default supported methods: " ++
       knowMethodsMsg)), st)

/-- Error message of `get_lookup_field_from_serializer`. -/
def lookupErrMsg (fieldName serializerName : String) : String :=
  "Trying to build a Retrieve or Destroy request with retrieve field named: " ++
  fieldName ++ " but this field is not existing in the serializer: " ++ serializerName

/-- `get_lookup_field_from_serializer`: the `(field_name, proto_type)` pair
of the lookup field, raising when the field is not among the serializer
fields; the `type_mapping` default here is `"lookup_field_type_not_found"`. -/
def get_lookup_field_from_serializer (ser : Serializer) (svc : Service)
    (fieldName? : Option String) : Except RegErr (String × String) :=
  let fieldName := fieldName?.getD svc.lookupRequestField
  match alFind ser.fields fieldName with
  | none => .error (.registerService (lookupErrMsg fieldName ser.className))
  | some f =>
    .ok (fieldName, typeMappingGet f.className "lookup_field_type_not_found")

/-- `pagination` of `register_list_message_of_serializer`: the service's
`pagination_class` when set (a class is truthy), else whether
`grpc_settings.DEFAULT_PAGINATION_CLASS is not None`. -/
def pagination_enabled (cfg : GrpcSettings) (svc : Service) : Bool :=
  match svc.paginationClass with
  | some _ => true
  | none => cfg.has_DEFAULT_PAGINATION_CLASS

/-- `response_fields` of `register_list_message_of_serializer`. -/
def list_response_fields (cfg : GrpcSettings) (svc : Service)
    (listResponseFieldName childResponseMessageName : String) : FieldList :=
  (listResponseFieldName, "repeated " ++ childResponseMessageName) ::
    (if pagination_enabled cfg svc then [("count", "int32")] else [])

/-- `response_message_name` of `register_list_message_of_serializer`: the
custom name (truthy `message_name`) has `List` inserted before its
recognized suffix — with the Python `[:-0]` quirk when no suffix matches —
else it is `base_name ++ "List" ++ RESPONSE_SUFFIX`. -/
def list_message_name (cfg : GrpcSettings) (baseName : String)
    (messageName : Option String) (isRequest : Bool) : String :=
  match pyStrOpt messageName with
  | some mn =>
    if cfg.SEPARATE_READ_WRITE_MODEL then
      let suffixLen :=
        if isRequest && endsWithS mn REQUEST_SUFFIX then strLen REQUEST_SUFFIX
        else if !isRequest && endsWithS mn RESPONSE_SUFFIX then strLen RESPONSE_SUFFIX
        else 0
      pyNegSliceTake mn suffixLen ++ "List" ++ pyNegSliceDrop mn suffixLen
    else mn ++ "List"
  | none => baseName ++ "List" ++ RESPONSE_SUFFIX

/-- `register_list_message_of_serializer`: build the list-wrapper message
(results field plus pagination count), derive its name, and store it by
unconditional assignment. -/
def register_list_message_of_serializer (cfg : GrpcSettings) (app : String)
    (svc : Service) (baseName listResponseFieldName childResponseMessageName : String)
    (messageName : Option String) (isRequest : Bool) (st : Registry) :
    Except RegErr String × Registry :=
  let responseFields : FieldList :=
    list_response_fields cfg svc listResponseFieldName childResponseMessageName
  let responseMessageName := list_message_name cfg baseName messageName isRequest
  match setMsg app responseMessageName responseFields st with
  | (.ok _, st1) => (.ok responseMessageName, st1)
  | (.error e, st1) => (.error e, st1)

/-- `register_list_serializer_as_message`: empty `<Name>ListRequest`
message (unconditional assignment) plus the list-wrapper response built on
the serializer's response message. -/
def register_list_serializer_as_message (cfg : GrpcSettings) (fuel : Nat)
    (app : String) (svc : Service) (ser : Serializer) (st : Registry) :
    Except RegErr (String × String) × Registry :=
  let serializerName := get_message_name cfg ser.className false false
  match run cfg fuel (.regSer app ser none false) st with
  | (.error e, st1) => (.error e, st1)
  | (.ok childResponseMessageName, st1) =>
    let listResponseFieldName := get_list_response_field_name ser
    let requestMessageName := serializerName ++ "List" ++ REQUEST_SUFFIX
    match setMsg app requestMessageName [] st1 with
    | (.error e, st2) => (.error e, st2)
    | (.ok _, st2) =>
      match register_list_message_of_serializer cfg app svc serializerName
          listResponseFieldName childResponseMessageName none false st2 with
      | (.error e, st3) => (.error e, st3)
      | (.ok responseMessageName, st3) =>
        (.ok (requestMessageName, responseMessageName), st3)

/-- `register_retrieve_serializer_as_message`: a one-field
`<Name>RetrieveRequest` message (unconditional assignment) and the
serializer's response message. -/
def register_retrieve_serializer_as_message (cfg : GrpcSettings) (fuel : Nat)
    (app : String) (svc : Service) (ser : Serializer)
    (retrieveFieldName : Option String) (st : Registry) :
    Except RegErr (String × String) × Registry :=
  match get_lookup_field_from_serializer ser svc retrieveFieldName with
  | .error e => (.error e, st)
  | .ok retrieveField =>
    let serializerName := get_message_name cfg ser.className false false
    let requestMessageName := serializerName ++ "Retrieve" ++ REQUEST_SUFFIX
    match setMsg app requestMessageName [retrieveField] st with
    | (.error e, st1) => (.error e, st1)
    | (.ok _, st1) =>
      match run cfg fuel (.regSer app ser none false) st1 with
      | (.error e, st2) => (.error e, st2)
      | (.ok responseMessageName, st2) =>
        (.ok (requestMessageName, responseMessageName), st2)

/-- `register_destroy_serializer_as_message`: a one-field
`<Name>DestroyRequest` message; the response is the well-known empty type
(no response registration happens). -/
def register_destroy_serializer_as_message (cfg : GrpcSettings)
    (app : String) (svc : Service) (ser : Serializer)
    (destroyFieldName : Option String) (st : Registry) :
    Except RegErr (String × String) × Registry :=
  match get_lookup_field_from_serializer ser svc destroyFieldName with
  | .error e => (.error e, st)
  | .ok destroyField =>
    let serializerName := get_message_name cfg ser.className false false
    let requestMessageName := serializerName ++ "Destroy" ++ REQUEST_SUFFIX
    match setMsg app requestMessageName [destroyField] st with
    | (.error e, st1) => (.error e, st1)
    | (.ok _, st1) => (.ok (requestMessageName, "google.protobuf.Empty"), st1)

/-- `register_stream_serializer_as_message`: empty `<Name>StreamRequest`
message (unconditional assignment) and the serializer's response message. -/
def register_stream_serializer_as_message (cfg : GrpcSettings) (fuel : Nat)
    (app : String) (ser : Serializer) (st : Registry) :
    Except RegErr (String × String) × Registry :=
  let serializerName := get_message_name cfg ser.className false false
  let requestMessageName := serializerName ++ "Stream" ++ REQUEST_SUFFIX
  match setMsg app requestMessageName [] st with
  | (.error e, st1) => (.error e, st1)
  | (.ok _, st1) =>
    match run cfg fuel (.regSer app ser none false) st1 with
    | (.error e, st2) => (.error e, st2)
    | (.ok responseMessageName, st2) =>
      (.ok (requestMessageName, responseMessageName), st2)

/-! ## Custom-action (decorator) registration path -/

/-- The request/response specification of a custom action: a literal field
list, a raw type-name string, a serializer class, or anything else (which
raises). -/
inductive CustomMsg where
  | fieldList (items : List (String × String))
  | raw (s : String)
  | serializer (ser : Serializer)
  | other

/-- `get_app_name_from_service_class`: first dotted component of
`__module__`. -/
def get_app_name_from_service_class (svc : Service) : String :=
  ⟨svc.moduleName.data.takeWhile (fun c => c ≠ '.')⟩

/-- `register_message_for_custom_action`: three-way dispatch on the message
specification; returns the message name and the list-response field name. -/
def register_message_for_custom_action (cfg : GrpcSettings) (fuel : Nat)
    (app serviceName functionName : String) (message : CustomMsg)
    (isRequest : Bool) (messageName : Option String) (st : Registry) :
    Except RegErr (String × String) × Registry :=
  match message with
  | .fieldList items =>
    if items.length = 0 then (.ok ("google.protobuf.Empty", DEFAULT_LIST_FIELD_NAME), st)
    else
      let messagesFields : FieldList := items
      let mn := messageName.getD (serviceName ++ functionName ++
        (if isRequest then REQUEST_SUFFIX else RESPONSE_SUFFIX))
      match setMsg app mn messagesFields st with
      | (.error e, st1) => (.error e, st1)
      | (.ok _, st1) => (.ok (mn, DEFAULT_LIST_FIELD_NAME), st1)
  | .raw s => (.ok (s, DEFAULT_LIST_FIELD_NAME), st)
  | .serializer ser =>
    let listResponseFieldName := get_list_response_field_name ser
    (match run cfg fuel (.regSer app ser messageName isRequest) st with
     | (.error e, st1) => (.error e, st1)
     | (.ok mn, st1) => (.ok (mn, listResponseFieldName), st1))
  | .other =>
    (.error (.registerService
      ((if isRequest then REQUEST_SUFFIX else RESPONSE_SUFFIX) ++
       " message for function " ++ functionName ++ " in app " ++ app ++
       " is not a list, a serializer or a string")), st)

/-- `is_special_protobuf_message`. -/
def is_special_protobuf_message (messageName : String) : Bool :=
  startsWithS messageName "google.protobuf"

/-- `get_base_name_for_list_message`. -/
def get_base_name_for_list_message (serviceName functionName messageName : String)
    (isRequest : Bool) : String :=
  let suffix := if isRequest then REQUEST_SUFFIX else RESPONSE_SUFFIX
  let listSuffix := "List" ++ suffix
  if is_special_protobuf_message messageName then
    if functionName = "List" then serviceName else serviceName ++ functionName
  else if functionName = "List" && containsSub messageName listSuffix then
    rreplace messageName listSuffix ""
  else rreplace messageName suffix ""

/-- `register_method_for_custom_action`: create the controller table on
demand and record the entry (last write wins). -/
def register_method_for_custom_action (app serviceName functionName
    requestMessageName responseMessageName : String)
    (requestStream responseStream : Bool) (st : Registry) :
    Except RegErr Unit × Registry :=
  let controllerName := serviceName ++ "Controller"
  match alFind st app with
  | none => (.error .keyError, st)
  | some e =>
    let ctrl := (alFind e.registered_controllers controllerName).getD []
    let entry : MethodEntry :=
      ⟨⟨requestStream, requestMessageName⟩, ⟨responseStream, responseMessageName⟩⟩
    let newCtrls := alSet e.registered_controllers controllerName (alSet ctrl functionName entry)
    (.ok (), alSet st app { e with registered_controllers := newCtrls })

/-- `register_custom_action`. -/
def register_custom_action (cfg : GrpcSettings) (fuel : Nat) (svcClass : Service)
    (functionName : String) (request response : CustomMsg)
    (requestName responseName : Option String)
    (requestStream responseStream useRequestList useResponseList : Bool)
    (st : Registry) : Except RegErr Unit × Registry :=
  let appName := get_app_name_from_service_class svcClass
  let st := ensureApp appName st
  let serviceName := svcClass.serviceName
  match register_message_for_custom_action cfg fuel appName serviceName functionName
      request true requestName st with
  | (.error e, st1) => (.error e, st1)
  | (.ok (requestMessageName0, listResponseFieldName), st1) =>
    let afterRequestList : Except RegErr String × Registry :=
      if useRequestList then
        let baseName := get_base_name_for_list_message serviceName functionName
          requestMessageName0 true
        register_list_message_of_serializer cfg appName svcClass baseName
          listResponseFieldName requestMessageName0 requestName true st1
      else (.ok requestMessageName0, st1)
    match afterRequestList with
    | (.error e, st2) => (.error e, st2)
    | (.ok requestMessageName, st2) =>
      match register_message_for_custom_action cfg fuel appName serviceName functionName
          response false responseName st2 with
      | (.error e, st3) => (.error e, st3)
      | (.ok (responseMessageName0, listResponseFieldName2), st3) =>
        let afterResponseList : Except RegErr String × Registry :=
          if useResponseList then
            let baseName := get_base_name_for_list_message serviceName functionName
              responseMessageName0 false
            register_list_message_of_serializer cfg appName svcClass baseName
              listResponseFieldName2 responseMessageName0 responseName false st3
          else (.ok responseMessageName0, st3)
        match afterResponseList with
        | (.error e, st4) => (.error e, st4)
        | (.ok responseMessageName1, st4) =>
          let responseMessageName :=
            match pyStrOpt responseName with
            | some rn => rn
            | none => responseMessageName1
          register_method_for_custom_action appName serviceName functionName
            requestMessageName responseMessageName requestStream responseStream st4

/-! ## Decidable equality for run results -/

instance instDecEqExcept {ε α : Type} [DecidableEq ε] [DecidableEq α] :
    DecidableEq (Except ε α) := fun a b =>
  match a, b with
  | .ok x, .ok y =>
    if h : x = y then .isTrue (by rw [h]) else .isFalse (by simp [h])
  | .error x, .error y =>
    if h : x = y then .isTrue (by rw [h]) else .isFalse (by simp [h])
  | .ok _, .error _ => .isFalse (by simp)
  | .error _, .ok _ => .isFalse (by simp)

/-- `r.isOk` for run results. -/
def exceptIsOk {ε α : Type} : Except ε α → Bool
  | .ok _ => true
  | .error _ => false

/-! ## The repeated-marker invariant: string theory

"At most one `repeated ` prefix appears in `t`" is expressed as: `t` does
not begin with two consecutive markers. -/

/-- `t` carries at most one leading `"repeated "` marker. -/
def atMostOneRep (t : String) : Bool := !(startsWithS t "repeated repeated ")

/-- No space character occurs in `s` (true of every Python identifier, in
particular of serializer class names). -/
def spaceFree (s : String) : Bool := s.data.all (fun c => c ≠ ' ')

theorem string_data_append (a b : String) : (a ++ b).data = a.data ++ b.data := rfl

theorem isPrefixOf_append_same (p a b : List Char) :
    (p ++ a).isPrefixOf (p ++ b) = a.isPrefixOf b := by
  induction p with
  | nil => rfl
  | cons c p ih => simp [List.isPrefixOf, ih]

theorem startsWithS_append_marker (x : String) :
    startsWithS ("repeated " ++ x) "repeated repeated " = startsWithS x "repeated " := by
  have h2 : ("repeated repeated " : String) = "repeated " ++ "repeated " := rfl
  rw [startsWithS, startsWithS, h2, string_data_append, string_data_append,
    isPrefixOf_append_same]

theorem atMostOneRep_append_marker (x : String) :
    atMostOneRep ("repeated " ++ x) = !(startsWithS x "repeated ") := by
  rw [atMostOneRep, startsWithS_append_marker]

theorem mem_of_startsWithS {s p : String} (h : startsWithS s p = true)
    {c : Char} (hc : c ∈ p.data) : c ∈ s.data := by
  rw [startsWithS, List.isPrefixOf_iff_prefix] at h
  exact h.subset hc

theorem not_startsWith_marker_of_spaceFree {s : String} (h : spaceFree s = true) :
    startsWithS s "repeated " = false := by
  by_contra hne
  have hs : startsWithS s "repeated " = true := by
    cases hsw : startsWithS s "repeated " with
    | true => rfl
    | false => exact absurd hsw hne
  have hmem : ' ' ∈ s.data := mem_of_startsWithS hs (by decide)
  rw [spaceFree, List.all_eq_true] at h
  have := h _ hmem
  simp at this

theorem atMostOneRep_of_spaceFree {s : String} (h : spaceFree s = true) :
    atMostOneRep ("repeated " ++ s) = true := by
  rw [atMostOneRep_append_marker, not_startsWith_marker_of_spaceFree h]
  rfl

theorem string_data_eq {a b : String} (h : a.data = b.data) : a = b := by
  cases a; cases b; exact congrArg String.mk h

/-- Dropping the marker from a string that starts with it. -/
theorem dropChars_marker {s : String} (h : startsWithS s "repeated " = true) :
    s = "repeated " ++ dropChars s 9 ∧
      startsWithS (dropChars s 9) "repeated " = !(atMostOneRep s) := by
  rw [startsWithS, List.isPrefixOf_iff_prefix] at h
  obtain ⟨t, ht⟩ := h
  have hdata : s.data = "repeated ".data ++ t := ht.symm
  have hdrop : (dropChars s 9).data = t := by
    rw [dropChars, hdata]
    have h9 : ("repeated ".data).length = 9 := by decide
    rw [show (9 : Nat) = ("repeated ".data).length from h9.symm,
      List.drop_left]
  have h1 : s = "repeated " ++ dropChars s 9 := by
    apply string_data_eq
    rw [string_data_append, hdrop, hdata]
  refine ⟨h1, ?_⟩
  rw [atMostOneRep, Bool.not_not]
  conv_rhs => rw [h1]
  rw [startsWithS_append_marker]

/-- All values of the type vocabulary are marker-free; hence a
`type_mapping.get` carries at most one marker whenever its default does,
and never starts with a marker whenever its default does not. -/
theorem typeMappingGet_no_marker (k d : String)
    (hd : startsWithS d "repeated " = false) :
    startsWithS (typeMappingGet k d) "repeated " = false := by
  rw [typeMappingGet]
  cases hf : alFind type_mapping k with
  | none => simpa using hd
  | some v =>
    have hmem := alFind_mem _ _ _ hf
    have hall : ∀ p ∈ type_mapping, startsWithS p.2 "repeated " = false := by decide
    simpa using hall _ hmem

theorem atMostOneRep_of_not_marker {t : String}
    (h : startsWithS t "repeated " = false) : atMostOneRep t = true := by
  rw [atMostOneRep]
  cases h2 : startsWithS t "repeated repeated " with
  | false => rfl
  | true =>
    have : ' ' ∈ t.data := mem_of_startsWithS h2 (by decide)
    have h9 : startsWithS t "repeated " = true := by
      rw [startsWithS, List.isPrefixOf_iff_prefix] at h2 ⊢
      have hp : "repeated ".data <+: "repeated repeated ".data :=
        List.isPrefixOf_iff_prefix.mp (by decide)
      exact hp.trans h2
    rw [h9] at h
    cases h

/-! ## Well-formed field descriptors

Python identifiers cannot contain spaces, and a custom string field is a
proto type name already carrying at most one `repeated` marker.  `goodField`
records exactly this about a field descriptor (recursively through
`ManyRelatedField.child_relation`). -/

mutual
def goodField : Field → Bool
  | .mk _ _ _ _ k => goodKind k

def goodKind : FieldKind → Bool
  | .fstr s => atMostOneRep s
  | .listProto c => spaceFree c.className
  | .nestedProto c => spaceFree c.className
  | .manyRelated c => goodField c
  | _ => true
end

/-! ## State preservation of the recursive core

The only mutations the recursive core performs are: inserting a fresh
(empty) message entry, and appending a field to the entry currently being
built.  `run_state` below captures the resulting preservation guarantees:
controller tables are untouched, existing message names never disappear,
and the stored field list of every message other than the one currently
being appended to (`protectedKey`) is unchanged — whether the run succeeds
or raises. -/

/-- The one message entry a pending call may append to. -/
def protectedKey : Req → Option (String × String)
  | .regFields app msgName _ _ _ _ => some (app, msgName)
  | _ => none

/-- Preservation of previously-registered state from `st` to `st'`, except
possibly the value stored under `exn`. -/
def Pres (st st' : Registry) (exn : Option (String × String)) : Prop :=
  (∀ a, ctrls st' a = ctrls st a) ∧
  (∀ a n, (msgLookup st a n).isSome = true → (msgLookup st' a n).isSome = true) ∧
  (∀ a n fl, msgLookup st a n = some fl → some (a, n) ≠ exn →
    msgLookup st' a n = some fl)

theorem Pres.refl {st : Registry} {e : Option (String × String)} : Pres st st e :=
  ⟨fun _ => rfl, fun _ _ h => h, fun _ _ _ h _ => h⟩

theorem Pres.trans {st st₁ st₂ : Registry} {e : Option (String × String)}
    (h1 : Pres st st₁ e) (h2 : Pres st₁ st₂ e) : Pres st st₂ e :=
  ⟨fun a => (h2.1 a).trans (h1.1 a),
   fun a n h => h2.2.1 a n (h1.2.1 a n h),
   fun a n fl h hne => h2.2.2 a n fl (h1.2.2 a n fl h hne) hne⟩

theorem Pres.mono {st st' : Registry} {e : Option (String × String)}
    (h : Pres st st' none) : Pres st st' e :=
  ⟨h.1, h.2.1, fun a n fl hf _ => h.2.2 a n fl hf (by simp)⟩

theorem msgLookup_alSet_app {st : Registry} {app : String} {e : AppEntry}
    (e' : AppEntry) (_hfind : alFind st app = some e) (a n : String) :
    msgLookup (alSet st app e') a n =
      if a = app then alFind e'.registered_messages n else msgLookup st a n := by
  rw [msgLookup, alFind_alSet]
  by_cases h : a = app
  · simp [h]
  · simp [h, msgLookup]

theorem ctrls_alSet_app {st : Registry} {app : String} {e : AppEntry}
    (hfind : alFind st app = some e) (m : List (String × FieldList)) (a : String) :
    ctrls (alSet st app (AppEntry.mk e.registered_controllers m)) a = ctrls st a := by
  rw [ctrls, ctrls, alFind_alSet]
  by_cases h : a = app
  · subst h; simp [hfind]
  · simp [h]

theorem appendMsg_pres (app n : String) (p : String × String) (st : Registry) :
    Pres st (appendMsg app n p st).2 (some (app, n)) := by
  cases hfa : alFind st app with
  | none => simp only [appendMsg, hfa]; exact Pres.refl
  | some e =>
    cases hfm : alFind e.registered_messages n with
    | none => simp only [appendMsg, hfa, hfm]; exact Pres.refl
    | some fl =>
      simp only [appendMsg, hfa, hfm]
      refine ⟨fun a => ctrls_alSet_app hfa _ a, ?_, ?_⟩
      · intro a k h
        rw [msgLookup_alSet_app _ hfa]
        by_cases ha : a = app
        · subst ha
          rw [if_pos rfl]
          show (alFind (alSet e.registered_messages n (fl ++ [p])) k).isSome = true
          rw [alFind_alSet]
          by_cases hkn : k = n
          · simp [hkn]
          · rw [if_neg hkn]
            rw [msgLookup, hfa] at h
            simpa using h
        · rw [if_neg ha]; exact h
      · intro a k fl' h hne
        rw [msgLookup_alSet_app _ hfa]
        by_cases ha : a = app
        · subst ha
          rw [if_pos rfl]
          show alFind (alSet e.registered_messages n (fl ++ [p])) k = some fl'
          rw [alFind_alSet]
          by_cases hkn : k = n
          · exact absurd (by rw [hkn]) hne
          · rw [if_neg hkn]
            rw [msgLookup, hfa] at h
            simpa using h
        · rw [if_neg ha]; exact h

/-- Effect of inserting a fresh empty message entry (the first mutation of
`register_serializer_as_message_if_not_exist`) on previously-registered
state. -/
theorem regSer_insert_pres {st : Registry} {app : String} {appEntry : AppEntry}
    (messageName : String) (hfa : alFind st app = some appEntry)
    (hex : ¬(alFind appEntry.registered_messages messageName).isSome = true) :
    (∀ a, ctrls (alSet st app (AppEntry.mk appEntry.registered_controllers
        (alSet appEntry.registered_messages messageName []))) a = ctrls st a) ∧
    (∀ a n, (msgLookup st a n).isSome = true →
      (msgLookup (alSet st app (AppEntry.mk appEntry.registered_controllers
        (alSet appEntry.registered_messages messageName []))) a n).isSome = true) ∧
    (∀ a n fl, msgLookup st a n = some fl →
      msgLookup (alSet st app (AppEntry.mk appEntry.registered_controllers
        (alSet appEntry.registered_messages messageName []))) a n = some fl ∧
      ¬(a = app ∧ n = messageName)) := by
  refine ⟨fun a => ctrls_alSet_app hfa _ a, ?_, ?_⟩
  · intro a n h
    rw [msgLookup_alSet_app _ hfa]
    by_cases ha : a = app
    · subst ha
      rw [if_pos rfl]
      show (alFind (alSet appEntry.registered_messages messageName []) n).isSome = true
      rw [alFind_alSet]
      by_cases hn : n = messageName
      · simp [hn]
      · rw [if_neg hn]
        rw [msgLookup, hfa] at h
        simpa using h
    · rw [if_neg ha]; exact h
  · intro a n fl h
    have hne : ¬(a = app ∧ n = messageName) := by
      rintro ⟨rfl, rfl⟩
      rw [msgLookup, hfa] at h
      simp at h
      rw [h] at hex
      simp at hex
    refine ⟨?_, hne⟩
    rw [msgLookup_alSet_app _ hfa]
    by_cases ha : a = app
    · subst ha
      rw [if_pos rfl]
      show alFind (alSet appEntry.registered_messages messageName []) n = some fl
      rw [alFind_alSet]
      have hn : ¬ n = messageName := fun hh => hne ⟨rfl, hh⟩
      rw [if_neg hn]
      rw [msgLookup, hfa] at h
      simpa using h
    · rw [if_neg ha]; exact h

theorem run_state (cfg : GrpcSettings) :
    ∀ (fuel : Nat) (req : Req) (st : Registry),
      Pres st (run cfg fuel req st).2 (protectedKey req) := by
  intro fuel
  induction fuel with
  | zero => intro req st; exact Pres.refl
  | succ fuel ih =>
    intro req st
    cases req with
    | regSer app ser mn isReq =>
      simp only [run]
      generalize mn.getD (get_message_name cfg ser.className isReq true) = messageName
      generalize ser.meta.model.map ModelInfo.pkName = pkName
      cases hfa : alFind st app with
      | none => exact Pres.refl
      | some appEntry =>
        by_cases hex : (alFind appEntry.registered_messages messageName).isSome = true
        · simp only [hex, if_true]
          exact Pres.refl
        · simp only [hex, if_false, Bool.false_eq_true]
          have hpre := regSer_insert_pres messageName hfa hex
          rcases hrun : run cfg fuel
              (.regFields app messageName pkName isReq ser ser.fields)
              (alSet st app (AppEntry.mk appEntry.registered_controllers
                (alSet appEntry.registered_messages messageName []))) with ⟨r, st2⟩
          have hIH := ih (.regFields app messageName pkName isReq ser ser.fields)
            (alSet st app (AppEntry.mk appEntry.registered_controllers
              (alSet appEntry.registered_messages messageName [])))
          rw [hrun] at hIH
          have hgoal : Pres st st2 (protectedKey (.regSer app ser mn isReq)) := by
            refine ⟨?_, ?_, ?_⟩
            · intro a
              exact (hIH.1 a).trans (hpre.1 a)
            · intro a n h
              exact hIH.2.1 a n (hpre.2.1 a n h)
            · intro a n fl h _
              obtain ⟨hv, hne⟩ := hpre.2.2 a n fl h
              refine hIH.2.2 a n fl hv ?_
              intro hcon
              simp only [protectedKey, Option.some_inj, Prod.mk.injEq] at hcon
              exact hne hcon
          cases r with
          | ok v => exact hgoal
          | error e => exact hgoal
    | regFields app msgName pkName isReq ser flds =>
      cases flds with
      | nil => simp only [run]; exact Pres.refl
      | cons hd rest =>
        obtain ⟨fieldName, f⟩ := hd
        simp only [run]
        by_cases hskip : shouldSkipField cfg pkName isReq fieldName f = true
        · simp only [hskip, if_true]
          exact ih (.regFields app msgName pkName isReq ser rest) st
        · simp only [hskip, if_false, Bool.false_eq_true]
          rcases hrun1 : run cfg fuel (.protoType app f fieldName ser (some isReq)) st
            with ⟨r1, st1⟩
          have h1 : Pres st st1 (some (app, msgName)) := by
            have := ih (.protoType app f fieldName ser (some isReq)) st
            rw [hrun1] at this
            exact this.mono
          cases r1 with
          | error e => exact h1
          | ok t =>
            show Pres st (match appendMsg app msgName (fieldName, t) st1 with
              | (.error e, st2) => ((.error e : Except RegErr String), st2)
              | (.ok _, st2) =>
                run cfg fuel (.regFields app msgName pkName isReq ser rest) st2).2
              (some (app, msgName))
            rcases happ : appendMsg app msgName (fieldName, t) st1 with ⟨r2, st2⟩
            have h2 : Pres st1 st2 (some (app, msgName)) := by
              have := appendMsg_pres app msgName (fieldName, t) st1
              rw [happ] at this
              exact this
            cases r2 with
            | error e => exact h1.trans h2
            | ok u =>
              have h3 := ih (.regFields app msgName pkName isReq ser rest) st2
              exact (h1.trans h2).trans h3
    | protoType app f fieldName ser isReq =>
      obtain ⟨cn, ro, wo, roc, k⟩ := f
      cases k with
      | fstr s => exact Pres.refl
      | hidden => exact Pres.refl
      | plain => exact Pres.refl
      | slug slugField => exact Pres.refl
      | related p q => exact Pres.refl
      | listSer => exact Pres.refl
      | modelField m => exact Pres.refl
      | listField c => exact Pres.refl
      | dictField => exact Pres.refl
      | baseSer => exact Pres.refl
      | methodField mn? =>
        simp only [run, Field.kind]
        cases get_proto_type_from_inspect mn? fieldName ser with
        | ok t => exact Pres.refl
        | error e => exact Pres.refl
      | listProto child =>
        simp only [run, Field.kind]
        rcases hrun : run cfg fuel (.regSer app child none (optTruthy isReq)) st
          with ⟨r, st1⟩
        have h1 : Pres st st1 (protectedKey (.protoType app
            (.mk cn ro wo roc (.listProto child)) fieldName ser isReq)) := by
          have := ih (.regSer app child none (optTruthy isReq)) st
          rw [hrun] at this
          exact this.mono
        cases r with
        | ok v => exact h1
        | error e => exact h1
      | nestedProto child =>
        simp only [run, Field.kind]
        rcases hrun : run cfg fuel (.regSer app child none (optTruthy isReq)) st
          with ⟨r, st1⟩
        have h1 : Pres st st1 (protectedKey (.protoType app
            (.mk cn ro wo roc (.nestedProto child)) fieldName ser isReq)) := by
          have := ih (.regSer app child none (optTruthy isReq)) st
          rw [hrun] at this
          exact this.mono
        cases r with
        | ok v => exact h1
        | error e => exact h1
      | manyRelated child =>
        simp only [run, Field.kind]
        rcases hrun : run cfg fuel (.protoType app child fieldName ser isReq) st
          with ⟨r, st1⟩
        have h1 : Pres st st1 (protectedKey (.protoType app
            (.mk cn ro wo roc (.manyRelated child)) fieldName ser isReq)) := by
          have := ih (.protoType app child fieldName ser isReq) st
          rw [hrun] at this
          exact this.mono
        cases r with
        | ok v => exact h1
        | error e => exact h1

/-! ## Successful registrations: name and membership -/

theorem msgLookup_isSome_elim {st : Registry} {a n : String}
    (h : (msgLookup st a n).isSome = true) :
    ∃ e, alFind st a = some e ∧ (alFind e.registered_messages n).isSome = true := by
  rw [msgLookup] at h
  cases hfa : alFind st a with
  | none => rw [hfa] at h; simp at h
  | some e =>
    rw [hfa] at h
    exact ⟨e, rfl, by simpa using h⟩

/-- A successful `register_serializer_as_message_if_not_exist` returns the
derived (or explicitly given) message name, and that name is registered in
the resulting state. -/
theorem regSer_ok_spec (cfg : GrpcSettings) (fuel : Nat) (app : String)
    (ser : Serializer) (mn : Option String) (isReq : Bool) (st st' : Registry)
    (name : String)
    (h : run cfg fuel (.regSer app ser mn isReq) st = (.ok name, st')) :
    name = mn.getD (get_message_name cfg ser.className isReq true) ∧
    (msgLookup st' app name).isSome = true := by
  cases fuel with
  | zero => simp [run] at h
  | succ fuel =>
    simp only [run] at h
    set messageName : String :=
      mn.getD (get_message_name cfg ser.className isReq true) with hmn
    set pkName : Option String := ser.meta.model.map ModelInfo.pkName with hpk
    cases hfa : alFind st app with
    | none => rw [hfa] at h; simp at h
    | some appEntry =>
      rw [hfa] at h
      simp only at h
      by_cases hex : (alFind appEntry.registered_messages messageName).isSome = true
      · rw [if_pos hex] at h
        rw [Prod.mk.injEq, Except.ok.injEq] at h
        obtain ⟨h1, h2⟩ := h
        refine ⟨h1.symm, ?_⟩
        rw [← h2, ← h1, msgLookup, hfa]
        simpa using hex
      · rw [if_neg hex] at h
        rcases hrun : run cfg fuel
            (.regFields app messageName pkName isReq ser ser.fields)
            (alSet st app (AppEntry.mk appEntry.registered_controllers
              (alSet appEntry.registered_messages messageName []))) with ⟨r1, st2⟩
        rw [hrun] at h
        cases r1 with
        | error e => simp at h
        | ok v =>
          simp only [Prod.mk.injEq, Except.ok.injEq] at h
          obtain ⟨h1, h2⟩ := h
          refine ⟨h1.symm, ?_⟩
          have hmono := (run_state cfg fuel
            (.regFields app messageName pkName isReq ser ser.fields)
            (alSet st app (AppEntry.mk appEntry.registered_controllers
              (alSet appEntry.registered_messages messageName [])))).2.1
          rw [hrun] at hmono
          rw [← h2, ← h1]
          apply hmono
          rw [msgLookup_alSet_app _ hfa]
          rw [if_pos rfl]
          show (alFind (alSet appEntry.registered_messages _ []) _).isSome = true
          rw [alFind_alSet, if_pos rfl]
          rfl

/-- Registering the same serializer under the same app, explicit name and
request/response mode a second time is a no-op returning the same name. -/
theorem regSer_idempotent (cfg : GrpcSettings) (fuel fuel' : Nat) (app : String)
    (ser : Serializer) (mn : Option String) (isReq : Bool) (st st₁ : Registry)
    (name : String)
    (h : run cfg fuel (.regSer app ser mn isReq) st = (.ok name, st₁)) :
    run cfg (fuel' + 1) (.regSer app ser mn isReq) st₁ = (.ok name, st₁) := by
  obtain ⟨hname, hmem⟩ := regSer_ok_spec cfg fuel app ser mn isReq st st₁ name h
  obtain ⟨e, hfa, hex⟩ := msgLookup_isSome_elim hmem
  simp only [run]
  rw [← hname]
  simp only [hfa]
  rw [if_pos hex]

/-! ## Specifications of the registry primitives -/

theorem setMsg_ok {st : Registry} {app : String} {e : AppEntry}
    (h : alFind st app = some e) (n : String) (fl : FieldList) :
    setMsg app n fl st =
      (.ok (), alSet st app (AppEntry.mk e.registered_controllers
        (alSet e.registered_messages n fl))) := by
  simp [setMsg, h]

theorem setMsg_lookup {st : Registry} {app : String} {e : AppEntry}
    (h : alFind st app = some e) (n : String) (fl : FieldList) (a k : String) :
    msgLookup (setMsg app n fl st).2 a k =
      if a = app then (if k = n then some fl else alFind e.registered_messages k)
      else msgLookup st a k := by
  have h2 : (setMsg app n fl st).2 = alSet st app (AppEntry.mk e.registered_controllers
      (alSet e.registered_messages n fl)) := by rw [setMsg_ok h]
  rw [h2, msgLookup_alSet_app _ h]
  by_cases ha : a = app
  · rw [if_pos ha, if_pos ha]
    show alFind (alSet e.registered_messages n fl) k = _
    rw [alFind_alSet]
  · rw [if_neg ha, if_neg ha]

theorem setMethodEntry_spec {st : Registry} {app : String} {e : AppEntry}
    (h : alFind st app = some e) {c : String} {ctbl : ControllerEntry}
    (hc : alFind e.registered_controllers c = some ctbl)
    (m : String) (entry : MethodEntry) :
    (setMethodEntry app c m entry st).1 = .ok () ∧
    methodLookup (setMethodEntry app c m entry st).2 app c m = some entry := by
  simp only [setMethodEntry, h, hc]
  refine ⟨trivial, ?_⟩
  rw [methodLookup, alFind_alSet, if_pos rfl]
  show (alFind (alSet e.registered_controllers c (alSet ctbl m entry)) c).bind
    (fun ctrl => alFind ctrl m) = some entry
  rw [alFind_alSet, if_pos rfl]
  show alFind (alSet ctbl m entry) m = some entry
  rw [alFind_alSet, if_pos rfl]

/-- `register_method_for_custom_action` records exactly the given entry
under the derived controller and the action name. -/
theorem register_method_for_custom_action_spec {st : Registry} {app : String}
    {e : AppEntry} (h : alFind st app = some e)
    (serviceName functionName rqName rsName : String) (rqS rsS : Bool) :
    (register_method_for_custom_action app serviceName functionName rqName rsName
        rqS rsS st).1 = .ok () ∧
    methodLookup (register_method_for_custom_action app serviceName functionName
        rqName rsName rqS rsS st).2 app (serviceName ++ "Controller") functionName =
      some ⟨⟨rqS, rqName⟩, ⟨rsS, rsName⟩⟩ := by
  simp only [register_method_for_custom_action, h]
  refine ⟨trivial, ?_⟩
  rw [methodLookup, alFind_alSet, if_pos rfl]
  show (alFind (alSet e.registered_controllers (serviceName ++ "Controller")
      (alSet ((alFind e.registered_controllers (serviceName ++ "Controller")).getD [])
        functionName ⟨⟨rqS, rqName⟩, ⟨rsS, rsName⟩⟩))
      (serviceName ++ "Controller")).bind (fun ctrl => alFind ctrl functionName) =
    some ⟨⟨rqS, rqName⟩, ⟨rsS, rsName⟩⟩
  rw [alFind_alSet, if_pos rfl]
  show alFind (alSet ((alFind e.registered_controllers
      (serviceName ++ "Controller")).getD []) functionName
      ⟨⟨rqS, rqName⟩, ⟨rsS, rsName⟩⟩) functionName = _
  rw [alFind_alSet, if_pos rfl]

/-! ## The repeated-marker invariant (spec §8) -/

theorem rreplaceAux_no_space {old new : List Char}
    (hn : ∀ c ∈ new, ¬ c = ' ') :
    ∀ s : List Char, (∀ c ∈ s, ¬ c = ' ') →
      ∀ r, rreplaceAux old new s = some r → ∀ c ∈ r, ¬ c = ' ' := by
  intro s
  induction s with
  | nil => intro _ r hr; simp [rreplaceAux] at hr
  | cons c rest ih =>
    intro hs r hr
    rw [rreplaceAux] at hr
    cases haux : rreplaceAux old new rest with
    | some r' =>
      rw [haux] at hr
      simp only [Option.some_inj] at hr
      subst hr
      intro x hx
      rcases List.mem_cons.mp hx with hx | hx
      · rw [hx]; exact hs c (List.mem_cons_self c rest)
      · exact ih (fun y hy => hs y (List.mem_cons_of_mem _ hy)) r' haux x hx
    | none =>
      rw [haux] at hr
      by_cases hp : old.isPrefixOf (c :: rest) = true
      · rw [if_pos hp] at hr
        simp only [Option.some_inj] at hr
        subst hr
        intro x hx
        rcases List.mem_append.mp hx with hx | hx
        · exact hn x hx
        · exact hs x (List.mem_of_mem_drop hx)
      · rw [if_neg hp] at hr
        cases hr

theorem rreplace_spaceFree {s old new : String} (hs : spaceFree s = true)
    (hn : spaceFree new = true) : spaceFree (rreplace s old new) = true := by
  rw [rreplace]
  cases haux : rreplaceAux old.data new.data s.data with
  | none => exact hs
  | some r =>
    rw [spaceFree, List.all_eq_true]
    intro c hc
    rw [spaceFree, List.all_eq_true] at hs hn
    have := rreplaceAux_no_space (fun x hx => by simpa using hn x hx) s.data
      (fun x hx => by simpa using hs x hx) r haux c hc
    simpa using this

theorem spaceFree_append (a b : String) :
    spaceFree (a ++ b) = (spaceFree a && spaceFree b) := by
  rw [spaceFree, spaceFree, spaceFree, string_data_append, List.all_append]

/-- Message names derived from space-free class names are space-free. -/
theorem get_message_name_spaceFree {cfg : GrpcSettings} {className : String}
    (h : spaceFree className = true) (isRequest appendType : Bool) :
    spaceFree (get_message_name cfg className isRequest appendType) = true := by
  rw [get_message_name]
  have hbase : spaceFree
      (if containsSub className "ProtoSerializer" then rreplace className "ProtoSerializer" ""
       else if containsSub className "Serializer" then rreplace className "Serializer" ""
       else className) = true := by
    by_cases h1 : containsSub className "ProtoSerializer" = true
    · rw [if_pos h1]; exact rreplace_spaceFree h (by decide)
    · rw [if_neg h1]
      by_cases h2 : containsSub className "Serializer" = true
      · rw [if_pos h2]; exact rreplace_spaceFree h (by decide)
      · rw [if_neg h2]; exact h
  by_cases hsep : (cfg.SEPARATE_READ_WRITE_MODEL && appendType) = true
  · rw [if_pos hsep, spaceFree_append, hbase]
    cases isRequest <;> decide
  · rw [if_neg hsep]; exact hbase

theorem typeMappingGet_atMostOneRep (k d : String)
    (hd : startsWithS d "repeated " = false) :
    atMostOneRep (typeMappingGet k d) = true :=
  atMostOneRep_of_not_marker (typeMappingGet_no_marker k d hd)

theorem slug_atMostOneRep (slugField fieldName : String) (ser : Serializer) :
    atMostOneRep (get_pk_from_slug_related_field slugField fieldName ser) = true := by
  rw [get_pk_from_slug_related_field]
  cases hmo : ser.meta.model with
  | none => exact (by decide : atMostOneRep "string" = true)
  | some m =>
    show atMostOneRep (match alFind m.relationships fieldName with
      | none => "string"
      | some rel =>
        match alFind rel.relatedAttrs slugField with
        | none => "string"
        | some slugFieldClassName =>
          let protoType := typeMappingGet slugFieldClassName "slug_field type not found"
          if rel.toMany then "repeated " ++ protoType else protoType) = true
    cases hrel : alFind m.relationships fieldName with
    | none => exact (by decide : atMostOneRep "string" = true)
    | some rel =>
      show atMostOneRep (match alFind rel.relatedAttrs slugField with
        | none => "string"
        | some slugFieldClassName =>
          let protoType := typeMappingGet slugFieldClassName "slug_field type not found"
          if rel.toMany then "repeated " ++ protoType else protoType) = true
      cases hattr : alFind rel.relatedAttrs slugField with
      | none => exact (by decide : atMostOneRep "string" = true)
      | some cnm =>
        have hpt : startsWithS (typeMappingGet cnm "slug_field type not found")
            "repeated " = false :=
          typeMappingGet_no_marker cnm _ (by decide)
        show atMostOneRep (if rel.toMany
          then "repeated " ++ typeMappingGet cnm "slug_field type not found"
          else typeMappingGet cnm "slug_field type not found") = true
        by_cases hm : rel.toMany = true
        · rw [if_pos hm, atMostOneRep_append_marker, hpt]
          rfl
        · rw [if_neg hm]
          exact atMostOneRep_of_not_marker hpt

theorem inspect_atMostOneRep {methodName? : Option String} {fieldName : String}
    {ser : Serializer} {t : String}
    (h : get_proto_type_from_inspect methodName? fieldName ser = .ok t) :
    atMostOneRep t = true := by
  rw [get_proto_type_from_inspect] at h
  cases hma : alFind ser.methods (methodName?.getD ("get_" ++ fieldName)) with
  | none =>
    rw [hma] at h
    simp only [Except.ok.injEq] at h
    rw [← h]; decide
  | some a =>
    rw [hma] at h
    cases a with
    | none => simp at h
    | some pt =>
      simp only [Except.ok.injEq] at h
      rw [← h]
      cases pt <;> decide

/-- The repeated-marker invariant for `get_proto_type`, by induction on
fuel: any successfully resolved type descriptor of a well-formed field
carries at most one `repeated ` marker. -/
theorem protoType_atMostOneRep (cfg : GrpcSettings) :
    ∀ (fuel : Nat) (app : String) (f : Field) (fieldName : String)
      (ser : Serializer) (isReq : Option Bool) (st : Registry) (t : String)
      (st' : Registry),
      goodField f = true →
      run cfg fuel (.protoType app f fieldName ser isReq) st = (.ok t, st') →
      atMostOneRep t = true := by
  intro fuel
  induction fuel with
  | zero =>
    intro app f fieldName ser isReq st t st' _ h
    simp [run] at h
  | succ fuel ih =>
    intro app f fieldName ser isReq st t st' hg h
    obtain ⟨cn, ro, wo, roc, k⟩ := f
    rw [goodField] at hg
    cases k with
    | fstr s =>
      simp only [run, Field.kind, Prod.mk.injEq, Except.ok.injEq] at h
      rw [← h.1]
      rw [goodKind] at hg
      exact hg
    | hidden =>
      simp only [run, Field.kind, Prod.mk.injEq, Except.ok.injEq] at h
      rw [← h.1]
      exact typeMappingGet_atMostOneRep _ _ (by decide)
    | plain =>
      simp only [run, Field.kind, Prod.mk.injEq, Except.ok.injEq] at h
      rw [← h.1]
      exact typeMappingGet_atMostOneRep _ _ (by decide)
    | slug slugField =>
      simp only [run, Field.kind, Prod.mk.injEq, Except.ok.injEq] at h
      rw [← h.1]
      exact slug_atMostOneRep slugField fieldName ser
    | related p q =>
      simp only [run, Field.kind, Prod.mk.injEq, Except.ok.injEq] at h
      rw [← h.1, get_pk_from_related_field]
      exact typeMappingGet_atMostOneRep _ _ (by decide)
    | listSer =>
      simp only [run, Field.kind, Prod.mk.injEq, Except.ok.injEq] at h
      rw [← h.1]; decide
    | modelField m =>
      simp only [run, Field.kind, Prod.mk.injEq, Except.ok.injEq] at h
      rw [← h.1]
      exact typeMappingGet_atMostOneRep _ _ (by decide)
    | listField c =>
      simp only [run, Field.kind, Prod.mk.injEq, Except.ok.injEq] at h
      rw [← h.1, atMostOneRep_append_marker,
        typeMappingGet_no_marker c _ (by decide)]
      rfl
    | dictField =>
      simp only [run, Field.kind, Prod.mk.injEq, Except.ok.injEq] at h
      rw [← h.1]; decide
    | baseSer =>
      simp only [run, Field.kind, Prod.mk.injEq, Except.ok.injEq] at h
      rw [← h.1]; decide
    | methodField mn? =>
      simp only [run, Field.kind] at h
      cases hins : get_proto_type_from_inspect mn? fieldName ser with
      | ok u =>
        rw [hins] at h
        simp only [Prod.mk.injEq, Except.ok.injEq] at h
        rw [← h.1]
        exact inspect_atMostOneRep hins
      | error e => rw [hins] at h; simp at h
    | listProto child =>
      rw [goodKind] at hg
      simp only [run, Field.kind] at h
      rcases hrun : run cfg fuel (.regSer app child none (optTruthy isReq)) st
        with ⟨r, st1⟩
      rw [hrun] at h
      cases r with
      | error e => simp at h
      | ok v =>
        simp only [Prod.mk.injEq, Except.ok.injEq] at h
        rw [← h.1]
        exact atMostOneRep_of_spaceFree (get_message_name_spaceFree hg _ _)
    | nestedProto child =>
      rw [goodKind] at hg
      simp only [run, Field.kind] at h
      rcases hrun : run cfg fuel (.regSer app child none (optTruthy isReq)) st
        with ⟨r, st1⟩
      rw [hrun] at h
      cases r with
      | error e => simp at h
      | ok v =>
        simp only [Prod.mk.injEq, Except.ok.injEq] at h
        rw [← h.1]
        exact atMostOneRep_of_not_marker
          (not_startsWith_marker_of_spaceFree (get_message_name_spaceFree hg _ _))
    | manyRelated child =>
      rw [goodKind] at hg
      simp only [run, Field.kind] at h
      rcases hrun : run cfg fuel (.protoType app child fieldName ser isReq) st
        with ⟨r, st1⟩
      rw [hrun] at h
      cases r with
      | error e => simp at h
      | ok ct =>
        have hct : atMostOneRep ct = true :=
          ih app child fieldName ser isReq st ct st1 hg hrun
        simp only [Prod.mk.injEq, Except.ok.injEq] at h
        rw [← h.1]
        by_cases hsw : startsWithS ct "repeated " = true
        · rw [if_pos hsw, atMostOneRep_append_marker,
            (dropChars_marker hsw).2, hct]
          rfl
        · rw [if_neg hsw, atMostOneRep_append_marker]
          cases hsw2 : startsWithS ct "repeated " with
          | false => rfl
          | true => exact absurd hsw2 hsw

/-! ## Concrete fixtures for witnesses and counterexamples -/

def exCfg : GrpcSettings := ⟨true, false⟩

def exRegistry : Registry := [("app", ⟨[], []⟩)]

/-- A registry already holding a controller entry and a message. -/
def exRegistryPre : Registry :=
  [("app", ⟨[("C", [("M", ⟨⟨false, "X"⟩, ⟨false, "Y"⟩⟩)])],
    [("Other", [("x", "int32")])]⟩)]

/-- A serializer whose second field is a `SerializerMethodField` whose
accessor `get_b` exists but has no return annotation: resolving it raises
after the first field has already been appended. -/
def exBadSerializer : Serializer :=
  .mk "BadSerializer" ⟨none, none⟩
    [("a", .mk "CharField" false false false .plain),
     ("b", .mk "SerializerMethodField" false false false (.methodField none))]
    [("get_b", none)]

def exWidgetSerializer : Serializer :=
  .mk "WidgetSerializer" ⟨some ⟨"id", []⟩, none⟩
    [("id", .mk "IntegerField" true false false .plain),
     ("name", .mk "CharField" false false false .plain)]
    []

def exWidgetRegistryAfter : Registry :=
  [("app", ⟨[], [("WidgetRequest", [("id", "int32"), ("name", "string")])]⟩)]

def exSlugManySerializer : Serializer :=
  .mk "TagOwnerSerializer"
    ⟨some ⟨"id", [("tags", ⟨true, [("name", "CharField")]⟩)]⟩, none⟩
    [] []

/-- A `ManyRelatedField` whose `child_relation` is a `SlugRelatedField` on a
many-to-many relationship: the child already resolves to a `repeated` type. -/
def exManySlugField : Field :=
  .mk "ManyRelatedField" false false false
    (.manyRelated (.mk "SlugRelatedField" false false false (.slug "name")))

/-! ## Claim C1 -/

/-- C1 (counterexample): registering `exBadSerializer` fails on its second
field, yet a partially-filled entry `BadRequest ↦ [("a", "string")]` — absent
before the call — remains in the registry: the field list is appended to in
place, not built fully before being stored. -/
theorem claim_C1_counterexample :
    msgLookup exRegistry "app" "BadRequest" = none ∧
    exceptIsOk (register_serializer_as_message_if_not_exist exCfg 10 "app"
      exBadSerializer none true exRegistry).1 = false ∧
    msgLookup (register_serializer_as_message_if_not_exist exCfg 10 "app"
      exBadSerializer none true exRegistry).2 "app" "BadRequest" =
      some [("a", "string")] := by
  refine ⟨by decide, by decide, by decide⟩

/-- C1 (amended): a registration step — succeeding or failing — never
touches controller tables and never changes the stored field list of any
previously-registered message; however (per the counterexample) a failing
step may leave behind a partially-filled entry for the message it was
itself registering. -/
theorem claim_C1 (cfg : GrpcSettings) (fuel : Nat) (app : String)
    (ser : Serializer) (mn : Option String) (isReq : Bool) (st : Registry) :
    (∀ a, ctrls (register_serializer_as_message_if_not_exist cfg fuel app ser
      mn isReq st).2 a = ctrls st a) ∧
    (∀ a n fl, msgLookup st a n = some fl →
      msgLookup (register_serializer_as_message_if_not_exist cfg fuel app ser
        mn isReq st).2 a n = some fl) := by
  have h := run_state cfg fuel (.regSer app ser mn isReq) st
  exact ⟨h.1, fun a n fl hf => h.2.2 a n fl hf (by simp [protectedKey])⟩

theorem claim_C1_witness :
    msgLookup exRegistryPre "app" "Other" = some [("x", "int32")] ∧
    ctrls (register_serializer_as_message_if_not_exist exCfg 10 "app"
      exBadSerializer none true exRegistryPre).2 "app" = ctrls exRegistryPre "app" ∧
    msgLookup (register_serializer_as_message_if_not_exist exCfg 10 "app"
      exBadSerializer none true exRegistryPre).2 "app" "Other" =
      some [("x", "int32")] :=
  ⟨by decide,
   (claim_C1 exCfg 10 "app" exBadSerializer none true exRegistryPre).1 "app",
   (claim_C1 exCfg 10 "app" exBadSerializer none true exRegistryPre).2 "app"
     "Other" [("x", "int32")] (by decide)⟩

/-! ## Claim C2 -/

/-- C2: when a registration succeeds, registering the same serializer again
under the same app, explicit-name argument and request/response mode
returns the same message name and leaves the registry — in particular the
stored field list for that name — unchanged. -/
theorem claim_C2 (cfg : GrpcSettings) (fuel fuel' : Nat) (app : String)
    (ser : Serializer) (mn : Option String) (isReq : Bool) (st st₁ : Registry)
    (name : String)
    (h : register_serializer_as_message_if_not_exist cfg fuel app ser mn isReq st =
      (.ok name, st₁)) :
    register_serializer_as_message_if_not_exist cfg (fuel' + 1) app ser mn isReq st₁ =
      (.ok name, st₁) :=
  regSer_idempotent cfg fuel fuel' app ser mn isReq st st₁ name h

theorem claim_C2_witness :
    register_serializer_as_message_if_not_exist exCfg 10 "app" exWidgetSerializer
      none true exRegistry = (.ok "WidgetRequest", exWidgetRegistryAfter) ∧
    register_serializer_as_message_if_not_exist exCfg 3 "app" exWidgetSerializer
      none true exWidgetRegistryAfter = (.ok "WidgetRequest", exWidgetRegistryAfter) :=
  ⟨by decide,
   claim_C2 exCfg 10 2 "app" exWidgetSerializer none true exRegistry
     exWidgetRegistryAfter "WidgetRequest" (by decide)⟩

/-! ## Claim C3 -/

/-- C3: for every well-formed field descriptor (class names are space-free
identifiers and custom string fields carry at most one marker themselves,
both true of every descriptor the Python serializer layer can produce), a
successfully resolved type descriptor carries at most one `repeated `
prefix — in particular the duplicate marker of a slug relation on a
many-to-many relationship is stripped before re-wrapping. -/
theorem claim_C3 (cfg : GrpcSettings) (fuel : Nat) (app : String) (f : Field)
    (fieldName : String) (ser : Serializer) (isReq : Option Bool)
    (st st' : Registry) (t : String)
    (hg : goodField f = true)
    (h : get_proto_type cfg fuel app f fieldName ser isReq st = (.ok t, st')) :
    atMostOneRep t = true :=
  protoType_atMostOneRep cfg fuel app f fieldName ser isReq st t st' hg h

theorem claim_C3_witness :
    goodField exManySlugField = true ∧
    get_proto_type exCfg 5 "app" exManySlugField "tags" exSlugManySerializer
      (some false) exRegistry = (.ok "repeated string", exRegistry) ∧
    atMostOneRep "repeated string" = true :=
  ⟨by decide, by decide,
   claim_C3 exCfg 5 "app" exManySlugField "tags" exSlugManySerializer
     (some false) exRegistry exRegistry "repeated string" (by decide) (by decide)⟩

/-! ## Claim C4 -/

theorem get_message_name_widget_base (cfg : GrpcSettings) (b : Bool) :
    get_message_name cfg "WidgetSerializer" b false = "Widget" := by
  simp only [get_message_name, Bool.and_false]
  rw [if_neg (by decide : ¬(false = true))]
  rw [if_neg (by decide : ¬(containsSub "WidgetSerializer" "ProtoSerializer" = true))]
  rw [if_pos (by decide : containsSub "WidgetSerializer" "Serializer" = true)]
  decide

theorem get_message_name_widget_resp (cfg : GrpcSettings)
    (hsep : cfg.SEPARATE_READ_WRITE_MODEL = true) :
    get_message_name cfg "WidgetSerializer" false true = "WidgetResponse" := by
  simp only [get_message_name, hsep, Bool.and_self]
  rw [if_pos trivial]
  decide

theorem get_list_response_field_name_of_none {ser : Serializer}
    (h : ser.meta.message_list_attr = none) :
    get_list_response_field_name ser = "results" := by
  rw [get_list_response_field_name, h]
  rfl

theorem list_message_name_none (cfg : GrpcSettings) (b : String) (r : Bool) :
    list_message_name cfg b none r = b ++ "List" ++ RESPONSE_SUFFIX := rfl

/-- C4: with dual request/response mode on, the conventional list method
for a serializer named `WidgetSerializer` (without a custom list attribute)
produces an empty `WidgetListRequest` request message and a
`WidgetListResponse` response message whose first field is `results` of
type `repeated WidgetResponse`, followed by an `int32 count` field exactly
when pagination is enabled for the service. -/
theorem claim_C4 (cfg : GrpcSettings) (fuel : Nat) (app : String)
    (svc : Service) (ser : Serializer) (st st' : Registry) (rq rs : String)
    (hsep : cfg.SEPARATE_READ_WRITE_MODEL = true)
    (hcn : ser.className = "WidgetSerializer")
    (hattr : ser.meta.message_list_attr = none)
    (h : register_list_serializer_as_message cfg fuel app svc ser st =
      (.ok (rq, rs), st')) :
    rq = "WidgetListRequest" ∧ rs = "WidgetListResponse" ∧
    msgLookup st' app "WidgetListRequest" = some [] ∧
    msgLookup st' app "WidgetListResponse" =
      some (("results", "repeated WidgetResponse") ::
        (if pagination_enabled cfg svc then [("count", "int32")] else [])) := by
  simp only [register_list_serializer_as_message] at h
  rw [hcn, get_message_name_widget_base] at h
  rcases hrun : run cfg fuel (.regSer app ser none false) st with ⟨r, st1⟩
  rw [hrun] at h
  cases r with
  | error e => simp at h
  | ok child =>
    have hchild : child = "WidgetResponse" := by
      have h1 := (regSer_ok_spec cfg fuel app ser none false st st1 child hrun).1
      rw [hcn] at h1
      rw [h1]
      show get_message_name cfg "WidgetSerializer" false true = "WidgetResponse"
      exact get_message_name_widget_resp cfg hsep
    rw [hchild] at h
    simp only at h
    rw [show ("Widget" ++ "List" ++ REQUEST_SUFFIX : String) = "WidgetListRequest"
      from by decide] at h
    cases hfa1 : alFind st1 app with
    | none => rw [setMsg, hfa1] at h; simp at h
    | some e1 =>
      rw [setMsg_ok hfa1] at h
      simp only at h
      rw [get_list_response_field_name_of_none hattr] at h
      simp only [register_list_message_of_serializer, list_message_name_none] at h
      rw [show ("Widget" ++ "List" ++ RESPONSE_SUFFIX : String) = "WidgetListResponse"
        from by decide] at h
      have hfa2 : alFind (alSet st1 app (AppEntry.mk e1.registered_controllers
          (alSet e1.registered_messages "WidgetListRequest" []))) app =
          some (AppEntry.mk e1.registered_controllers
            (alSet e1.registered_messages "WidgetListRequest" [])) := by
        rw [alFind_alSet, if_pos rfl]
      rw [setMsg_ok hfa2] at h
      simp only [Prod.mk.injEq, Except.ok.injEq] at h
      obtain ⟨⟨hrq, hrs⟩, hst⟩ := h
      refine ⟨hrq.symm, hrs.symm, ?_, ?_⟩
      · rw [← hst]
        rw [msgLookup_alSet_app _ hfa2, if_pos rfl]
        show alFind (alSet (alSet e1.registered_messages "WidgetListRequest" [])
          "WidgetListResponse" (list_response_fields cfg svc "results"
            "WidgetResponse")) "WidgetListRequest" = some []
        rw [alFind_alSet,
          if_neg (by decide : ¬("WidgetListRequest" = "WidgetListResponse")),
          alFind_alSet, if_pos rfl]
      · rw [← hst]
        rw [msgLookup_alSet_app _ hfa2, if_pos rfl]
        show alFind (alSet (alSet e1.registered_messages "WidgetListRequest" [])
          "WidgetListResponse" (list_response_fields cfg svc "results"
            "WidgetResponse")) "WidgetListResponse" =
          some (("results", "repeated WidgetResponse") ::
            (if pagination_enabled cfg svc then [("count", "int32")] else []))
        rw [alFind_alSet, if_pos rfl]
        rfl

def exService : Service := ⟨"myapp.services", "Widget", none, "id"⟩

def exC4After : Registry :=
  [("app", ⟨[], [("WidgetResponse", [("id", "int32"), ("name", "string")]),
    ("WidgetListRequest", []),
    ("WidgetListResponse", [("results", "repeated WidgetResponse")])]⟩)]

theorem claim_C4_witness :
    exCfg.SEPARATE_READ_WRITE_MODEL = true ∧
    exWidgetSerializer.className = "WidgetSerializer" ∧
    exWidgetSerializer.meta.message_list_attr = none ∧
    register_list_serializer_as_message exCfg 10 "app" exService
      exWidgetSerializer exRegistry =
      (.ok ("WidgetListRequest", "WidgetListResponse"), exC4After) ∧
    msgLookup exC4After "app" "WidgetListRequest" = some [] ∧
    msgLookup exC4After "app" "WidgetListResponse" =
      some (("results", "repeated WidgetResponse") ::
        (if pagination_enabled exCfg exService then [("count", "int32")] else [])) :=
  ⟨rfl, by decide, by decide, by decide,
   (claim_C4 exCfg 10 "app" exService exWidgetSerializer exRegistry exC4After
     "WidgetListRequest" "WidgetListResponse" rfl (by decide) (by decide)
     (by decide)).2.2.1,
   (claim_C4 exCfg 10 "app" exService exWidgetSerializer exRegistry exC4After
     "WidgetListRequest" "WidgetListResponse" rfl (by decide) (by decide)
     (by decide)).2.2.2⟩

/-! ## Claim C8 -/

theorem setMethodEntry_ok_lookup {app c m : String} {entry : MethodEntry}
    {st st' : Registry}
    (h : setMethodEntry app c m entry st = (.ok (), st')) :
    methodLookup st' app c m = some entry := by
  cases hfa : alFind st app with
  | none => rw [setMethodEntry, hfa] at h; simp at h
  | some e =>
    cases hc : alFind e.registered_controllers c with
    | none =>
      rw [setMethodEntry, hfa] at h
      simp only at h
      rw [hc] at h
      simp at h
    | some ctbl =>
      have hs := (setMethodEntry_spec hfa hc m entry).2
      rw [h] at hs
      exact hs

/-- C8: every method entry recorded by `register_default_method` has a
non-streaming request, and a streaming response exactly for the `Stream`
method kind. -/
theorem claim_C8 (app controllerName method rqN rsN : String)
    (st st' : Registry)
    (h : register_default_method app controllerName method rqN rsN st =
      (.ok (), st')) :
    ∃ entry, methodLookup st' app controllerName method = some entry ∧
      entry.request.is_stream = false ∧
      (entry.response.is_stream = true ↔ method = "Stream") := by
  rw [register_default_method] at h
  by_cases hmem : method ∈ knowMethodsNoStream
  · rw [if_pos hmem] at h
    refine ⟨⟨⟨false, rqN⟩, ⟨false, rsN⟩⟩, setMethodEntry_ok_lookup h, rfl, ?_⟩
    have hne : ¬ method = "Stream" := by
      intro hEq
      rw [hEq] at hmem
      exact absurd hmem (by decide)
    simp [hne]
  · rw [if_neg hmem] at h
    by_cases hstream : method = "Stream"
    · rw [if_pos hstream] at h
      refine ⟨⟨⟨false, rqN⟩, ⟨true, rsN⟩⟩, setMethodEntry_ok_lookup h, rfl, ?_⟩
      simp [hstream]
    · rw [if_neg hstream] at h
      simp at h

theorem claim_C8_witness :
    register_default_method "app" "C" "List" "WidgetListRequest"
      "WidgetListResponse" exRegistryPre =
      (.ok (), [("app", ⟨[("C", [("M", ⟨⟨false, "X"⟩, ⟨false, "Y"⟩⟩),
        ("List", ⟨⟨false, "WidgetListRequest"⟩, ⟨false, "WidgetListResponse"⟩⟩)])],
        [("Other", [("x", "int32")])]⟩)]) ∧
    (∃ entry, methodLookup [("app", ⟨[("C", [("M", ⟨⟨false, "X"⟩, ⟨false, "Y"⟩⟩),
        ("List", ⟨⟨false, "WidgetListRequest"⟩, ⟨false, "WidgetListResponse"⟩⟩)])],
        [("Other", [("x", "int32")])]⟩)] "app" "C" "List" = some entry ∧
      entry.request.is_stream = false ∧
      (entry.response.is_stream = true ↔ ("List" : String) = "Stream")) :=
  ⟨by decide,
   claim_C8 "app" "C" "List" "WidgetListRequest" "WidgetListResponse"
     exRegistryPre _ (by decide)⟩

/-! ## Claim C9 -/

/-- C9: a `SerializerMethodField` whose accessor method is absent from the
serializer resolves silently to `"string"`; the missing-return-annotation
error is raised exactly when the accessor exists without a return
annotation. -/
theorem claim_C9 (methodName? : Option String) (fieldName : String)
    (ser : Serializer) :
    (alFind ser.methods (methodName?.getD ("get_" ++ fieldName)) = none →
      get_proto_type_from_inspect methodName? fieldName ser = .ok "string") ∧
    (alFind ser.methods (methodName?.getD ("get_" ++ fieldName)) = some none →
      get_proto_type_from_inspect methodName? fieldName ser =
        .error (.registerService (inspectErrMsg ser.className fieldName))) := by
  constructor <;> intro h <;> rw [get_proto_type_from_inspect, h]

theorem claim_C9_witness :
    get_proto_type_from_inspect none "a" exBadSerializer = .ok "string" ∧
    get_proto_type_from_inspect none "b" exBadSerializer =
      .error (.registerService (inspectErrMsg "BadSerializer" "b")) :=
  ⟨(claim_C9 none "a" exBadSerializer).1 (by decide),
   (claim_C9 none "b" exBadSerializer).2 (by decide)⟩

/-! ## Claim C6 -/

/-- C6 (counterexample): an unknown type identifier in plain-relation
primary-key lookup degrades to the sentinel `"related_not_found"`, not to
the generic `"string"` type as claimed. -/
theorem claim_C6_counterexample :
    alFind type_mapping "WeirdField" = none ∧
    get_pk_from_related_field (some "WeirdField") "IntegerField" =
      "related_not_found" ∧
    ¬ get_pk_from_related_field (some "WeirdField") "IntegerField" = "string" := by
  refine ⟨by decide, by decide, by decide⟩

/-- C6 (amended): an unknown host type identifier never raises; the generic
resolution site does fall back to `"string"`, but the three relation
lookup sites fall back to the sentinels `"related_not_found"`,
`"slug_field type not found"` (possibly `repeated`-wrapped) and
`"lookup_field_type_not_found"` respectively. -/
theorem claim_C6 :
    (∀ (pkc : Option String) (qs : String),
      alFind type_mapping (pkc.getD qs) = none →
      get_pk_from_related_field pkc qs = "related_not_found") ∧
    (∀ (slugField fieldName : String) (ser : Serializer) (m : ModelInfo)
      (rel : RelInfo) (cnm : String),
      ser.meta.model = some m →
      alFind m.relationships fieldName = some rel →
      alFind rel.relatedAttrs slugField = some cnm →
      alFind type_mapping cnm = none →
      get_pk_from_slug_related_field slugField fieldName ser =
        (if rel.toMany then "repeated " ++ "slug_field type not found"
         else ("slug_field type not found" : String))) ∧
    (∀ (ser : Serializer) (svc : Service) (fn : String) (f : Field),
      alFind ser.fields fn = some f →
      alFind type_mapping f.className = none →
      get_lookup_field_from_serializer ser svc (some fn) =
        .ok (fn, "lookup_field_type_not_found")) ∧
    (∀ (cfg : GrpcSettings) (fuel : Nat) (app cn : String) (ro wo roc : Bool)
      (fieldName : String) (ser : Serializer) (isReq : Option Bool) (st : Registry),
      alFind type_mapping cn = none →
      get_proto_type cfg (fuel + 1) app (.mk cn ro wo roc .plain) fieldName ser
        isReq st = (.ok "string", st)) := by
  refine ⟨?_, ?_, ?_, ?_⟩
  · intro pkc qs h
    simp only [get_pk_from_related_field, typeMappingGet, h]
    rfl
  · intro slugField fieldName ser m rel cnm hm hrel hattr hunk
    rw [get_pk_from_slug_related_field, hm]
    show (match alFind m.relationships fieldName with
      | none => "string"
      | some rel =>
        match alFind rel.relatedAttrs slugField with
        | none => "string"
        | some slugFieldClassName =>
          let protoType := typeMappingGet slugFieldClassName "slug_field type not found"
          if rel.toMany then "repeated " ++ protoType else protoType) = _
    rw [hrel]
    show (match alFind rel.relatedAttrs slugField with
      | none => "string"
      | some slugFieldClassName =>
        let protoType := typeMappingGet slugFieldClassName "slug_field type not found"
        if rel.toMany then "repeated " ++ protoType else protoType) = _
    rw [hattr]
    show (if rel.toMany
      then "repeated " ++ typeMappingGet cnm "slug_field type not found"
      else typeMappingGet cnm "slug_field type not found") = _
    rw [show typeMappingGet cnm "slug_field type not found" =
      "slug_field type not found" from by rw [typeMappingGet, hunk]; rfl]
  · intro ser svc fn f hf hunk
    simp only [get_lookup_field_from_serializer, Option.getD_some]
    rw [hf]
    show Except.ok (fn, typeMappingGet f.className "lookup_field_type_not_found") = _
    rw [show typeMappingGet f.className "lookup_field_type_not_found" =
      "lookup_field_type_not_found" from by rw [typeMappingGet, hunk]; rfl]
  · intro cfg fuel app cn ro wo roc fieldName ser isReq st h
    show run cfg (fuel + 1) (.protoType app (.mk cn ro wo roc .plain) fieldName
      ser isReq) st = (.ok "string", st)
    simp only [run, Field.kind, Field.className, typeMappingGet, h]
    rfl

/-- A serializer over a model whose slug target field and lookup field have
the unknown class `WeirdField`. -/
def exUnknownSerializer : Serializer :=
  .mk "USerializer"
    ⟨some ⟨"id", [("rel", ⟨false, [("code", "WeirdField")]⟩)]⟩, none⟩
    [("lookup", .mk "WeirdField" false false false .plain)] []

theorem claim_C6_witness :
    get_pk_from_related_field (some "WeirdField") "IntegerField" =
      "related_not_found" ∧
    get_pk_from_slug_related_field "code" "rel" exUnknownSerializer =
      "slug_field type not found" ∧
    get_lookup_field_from_serializer exUnknownSerializer exService
      (some "lookup") = .ok ("lookup", "lookup_field_type_not_found") ∧
    get_proto_type exCfg 5 "app" (.mk "WeirdField" false false false .plain)
      "x" exUnknownSerializer (some true) exRegistry = (.ok "string", exRegistry) :=
  ⟨claim_C6.1 (some "WeirdField") "IntegerField" (by decide),
   claim_C6.2.1 "code" "rel" exUnknownSerializer
     ⟨"id", [("rel", ⟨false, [("code", "WeirdField")]⟩)]⟩
     ⟨false, [("code", "WeirdField")]⟩ "WeirdField" rfl rfl rfl (by decide),
   claim_C6.2.2.1 exUnknownSerializer exService "lookup"
     (.mk "WeirdField" false false false .plain) rfl (by decide),
   claim_C6.2.2.2 exCfg 4 "app" "WeirdField" false false false "x"
     exUnknownSerializer (some true) exRegistry (by decide)⟩

/-! ## Claim C7 -/

theorem containsSub_intro (s t : String) (pre post : List Char)
    (hdata : s.data = pre ++ t.data ++ post) : containsSub s t = true := by
  rw [containsSub, List.any_eq_true]
  refine ⟨pre.length, ?_, ?_⟩
  · rw [List.mem_range, hdata]
    simp only [List.length_append]
    omega
  · rw [hdata, List.append_assoc, List.drop_left, List.isPrefixOf_iff_prefix]
    exact ⟨post, rfl⟩

theorem lookupErrMsg_contains (fn sn : String) :
    containsSub (lookupErrMsg fn sn) fn = true ∧
    containsSub (lookupErrMsg fn sn) sn = true := by
  constructor
  · apply containsSub_intro _ _
      ("Trying to build a Retrieve or Destroy request with retrieve field named: ").data
      ((" but this field is not existing in the serializer: " ++ sn).data)
    rw [lookupErrMsg]
    simp only [string_data_append, List.append_assoc]
  · apply containsSub_intro _ _
      ("Trying to build a Retrieve or Destroy request with retrieve field named: " ++
        fn ++ " but this field is not existing in the serializer: ").data []
    rw [lookupErrMsg]
    simp only [string_data_append, List.append_assoc, List.append_nil]

/-- A successful retrieve registration stores exactly the lookup-field pair
as the request message, by unconditional assignment. -/
theorem register_retrieve_spec (cfg : GrpcSettings) (fuel : Nat) (app : String)
    (svc : Service) (ser : Serializer) (rfn : Option String)
    (p : String × String) (st st' : Registry) (rq rs : String)
    (hlf : get_lookup_field_from_serializer ser svc rfn = .ok p)
    (h : register_retrieve_serializer_as_message cfg fuel app svc ser rfn st =
      (.ok (rq, rs), st')) :
    msgLookup st' app rq = some [p] := by
  simp only [register_retrieve_serializer_as_message, hlf] at h
  cases hfa : alFind st app with
  | none => rw [setMsg, hfa] at h; simp at h
  | some e =>
    rw [setMsg_ok hfa] at h
    simp only at h
    rcases hrun : run cfg fuel (.regSer app ser none false)
      (alSet st app (AppEntry.mk e.registered_controllers
        (alSet e.registered_messages
          (get_message_name cfg ser.className false false ++ "Retrieve" ++
            REQUEST_SUFFIX) [p]))) with ⟨r, st2⟩
    rw [hrun] at h
    cases r with
    | error er => simp at h
    | ok rs0 =>
      simp only [Prod.mk.injEq, Except.ok.injEq] at h
      obtain ⟨⟨hrq, _⟩, hst⟩ := h
      have hpres := (run_state cfg fuel (.regSer app ser none false)
        (alSet st app (AppEntry.mk e.registered_controllers
          (alSet e.registered_messages
            (get_message_name cfg ser.className false false ++ "Retrieve" ++
              REQUEST_SUFFIX) [p])))).2.2
      rw [hrun] at hpres
      rw [← hst, ← hrq]
      apply hpres _ _ [p] _ (by simp [protectedKey])
      rw [msgLookup_alSet_app _ hfa, if_pos rfl]
      show alFind (alSet e.registered_messages _ [p]) _ = some [p]
      rw [alFind_alSet, if_pos rfl]

/-- C7: a retrieve/destroy lookup field absent from the serializer's fields
raises a registration error whose message names both the field and the
serializer; when present, the retrieve request message consists of exactly
that one field. -/
theorem claim_C7 (cfg : GrpcSettings) (fuel : Nat) (app : String) (svc : Service)
    (ser₁ ser₂ : Serializer) (f : Field) (st st' : Registry) (rq rs : String)
    (h1 : alFind ser₁.fields svc.lookupRequestField = none)
    (h2 : alFind ser₂.fields svc.lookupRequestField = some f)
    (h3 : register_retrieve_serializer_as_message cfg fuel app svc ser₂ none st =
      (.ok (rq, rs), st')) :
    (get_lookup_field_from_serializer ser₁ svc none =
      .error (.registerService
        (lookupErrMsg svc.lookupRequestField ser₁.className)) ∧
     containsSub (lookupErrMsg svc.lookupRequestField ser₁.className)
       svc.lookupRequestField = true ∧
     containsSub (lookupErrMsg svc.lookupRequestField ser₁.className)
       ser₁.className = true) ∧
    msgLookup st' app rq = some [(svc.lookupRequestField,
      typeMappingGet f.className "lookup_field_type_not_found")] := by
  refine ⟨⟨?_, (lookupErrMsg_contains _ _).1, (lookupErrMsg_contains _ _).2⟩, ?_⟩
  · simp only [get_lookup_field_from_serializer, Option.getD_none]
    rw [h1]
  · refine register_retrieve_spec cfg fuel app svc ser₂ none _ st st' rq rs ?_ h3
    simp only [get_lookup_field_from_serializer, Option.getD_none]
    rw [h2]

theorem claim_C7_witness :
    alFind exUnknownSerializer.fields "id" = none ∧
    alFind exWidgetSerializer.fields "id" =
      some (.mk "IntegerField" true false false .plain) ∧
    register_retrieve_serializer_as_message exCfg 10 "app" exService
      exWidgetSerializer none exRegistry =
      (.ok ("WidgetRetrieveRequest", "WidgetResponse"),
        [("app", ⟨[], [("WidgetRetrieveRequest", [("id", "int32")]),
          ("WidgetResponse", [("id", "int32"), ("name", "string")])]⟩)]) ∧
    get_lookup_field_from_serializer exUnknownSerializer exService none =
      .error (.registerService (lookupErrMsg "id" "USerializer")) ∧
    msgLookup [("app", ⟨[], [("WidgetRetrieveRequest", [("id", "int32")]),
      ("WidgetResponse", [("id", "int32"), ("name", "string")])]⟩)]
      "app" "WidgetRetrieveRequest" = some [("id", "int32")] :=
  ⟨rfl, rfl, by decide,
   (claim_C7 exCfg 10 "app" exService exUnknownSerializer exWidgetSerializer
     (.mk "IntegerField" true false false .plain) exRegistry
     [("app", ⟨[], [("WidgetRetrieveRequest", [("id", "int32")]),
       ("WidgetResponse", [("id", "int32"), ("name", "string")])]⟩)]
     "WidgetRetrieveRequest" "WidgetResponse" rfl rfl (by decide)).1.1,
   (claim_C7 exCfg 10 "app" exService exUnknownSerializer exWidgetSerializer
     (.mk "IntegerField" true false false .plain) exRegistry
     [("app", ⟨[], [("WidgetRetrieveRequest", [("id", "int32")]),
       ("WidgetResponse", [("id", "int32"), ("name", "string")])]⟩)]
     "WidgetRetrieveRequest" "WidgetResponse" rfl rfl (by decide)).2⟩

/-! ## Claim C10 -/

/-- The list-wrapper message is stored by unconditional assignment: its
final value depends only on the arguments, never on the prior state. -/
theorem register_list_message_spec (cfg : GrpcSettings) (app : String)
    (svc : Service) (b lrfn child : String) (mn : Option String) (isReq : Bool)
    (st st' : Registry) (rname : String)
    (h : register_list_message_of_serializer cfg app svc b lrfn child mn isReq st =
      (.ok rname, st')) :
    rname = list_message_name cfg b mn isReq ∧
    msgLookup st' app rname = some (list_response_fields cfg svc lrfn child) := by
  simp only [register_list_message_of_serializer] at h
  cases hfa : alFind st app with
  | none => rw [setMsg, hfa] at h; simp at h
  | some e =>
    rw [setMsg_ok hfa] at h
    simp only [Prod.mk.injEq, Except.ok.injEq] at h
    obtain ⟨hn, hst⟩ := h
    refine ⟨hn.symm, ?_⟩
    rw [← hst, ← hn]
    rw [msgLookup_alSet_app _ hfa, if_pos rfl]
    show alFind (alSet e.registered_messages (list_message_name cfg b mn isReq)
      (list_response_fields cfg svc lrfn child)) _ = _
    rw [alFind_alSet, if_pos rfl]

theorem append_ne_of_data_ne (p x y : String) (h : ¬ x.data = y.data) :
    ¬ (p ++ x) = (p ++ y) := fun hh =>
  h (List.append_cancel_left (congrArg String.data hh))

/-- The conventional list request message is stored by unconditional
assignment as the empty field list. -/
theorem register_list_request_spec (cfg : GrpcSettings) (fuel : Nat)
    (app : String) (svc : Service) (ser : Serializer) (st st' : Registry)
    (rq rs : String)
    (h : register_list_serializer_as_message cfg fuel app svc ser st =
      (.ok (rq, rs), st')) :
    msgLookup st' app rq = some [] := by
  simp only [register_list_serializer_as_message] at h
  rcases hrun : run cfg fuel (.regSer app ser none false) st with ⟨r, st1⟩
  rw [hrun] at h
  cases r with
  | error e => simp at h
  | ok child =>
    simp only at h
    cases hfa : alFind st1 app with
    | none => rw [setMsg, hfa] at h; simp at h
    | some e1 =>
      rw [setMsg_ok hfa] at h
      simp only at h
      have hfa2 : alFind (alSet st1 app (AppEntry.mk e1.registered_controllers
          (alSet e1.registered_messages (get_message_name cfg ser.className false
            false ++ "List" ++ REQUEST_SUFFIX) []))) app =
          some (AppEntry.mk e1.registered_controllers
            (alSet e1.registered_messages (get_message_name cfg ser.className false
              false ++ "List" ++ REQUEST_SUFFIX) [])) := by
        rw [alFind_alSet, if_pos rfl]
      simp only [register_list_message_of_serializer] at h
      rw [setMsg_ok hfa2] at h
      simp only [Prod.mk.injEq, Except.ok.injEq] at h
      obtain ⟨⟨hrq, hrs⟩, hst⟩ := h
      rw [← hst, ← hrq]
      rw [msgLookup_alSet_app _ hfa2, if_pos rfl]
      show alFind (alSet (alSet e1.registered_messages _ [])
        (list_message_name cfg (get_message_name cfg ser.className false false)
          none false) (list_response_fields cfg svc
            (get_list_response_field_name ser) child)) _ = some []
      rw [alFind_alSet]
      rw [if_neg, alFind_alSet, if_pos rfl]
      rw [list_message_name_none]
      apply append_ne_of_data_ne
      decide

/-- The conventional stream request message is stored by unconditional
assignment as the empty field list. -/
theorem register_stream_spec (cfg : GrpcSettings) (fuel : Nat) (app : String)
    (ser : Serializer) (st st' : Registry) (rq rs : String)
    (h : register_stream_serializer_as_message cfg fuel app ser st =
      (.ok (rq, rs), st')) :
    msgLookup st' app rq = some [] := by
  simp only [register_stream_serializer_as_message] at h
  cases hfa : alFind st app with
  | none => rw [setMsg, hfa] at h; simp at h
  | some e =>
    rw [setMsg_ok hfa] at h
    simp only at h
    rcases hrun : run cfg fuel (.regSer app ser none false)
      (alSet st app (AppEntry.mk e.registered_controllers
        (alSet e.registered_messages (get_message_name cfg ser.className false
          false ++ "Stream" ++ REQUEST_SUFFIX) []))) with ⟨r, st2⟩
    rw [hrun] at h
    cases r with
    | error er => simp at h
    | ok rs0 =>
      simp only [Prod.mk.injEq, Except.ok.injEq] at h
      obtain ⟨⟨hrq, _⟩, hst⟩ := h
      have hpres := (run_state cfg fuel (.regSer app ser none false)
        (alSet st app (AppEntry.mk e.registered_controllers
          (alSet e.registered_messages (get_message_name cfg ser.className false
            false ++ "Stream" ++ REQUEST_SUFFIX) [])))).2.2
      rw [hrun] at hpres
      rw [← hst, ← hrq]
      apply hpres _ _ [] _ (by simp [protectedKey])
      rw [msgLookup_alSet_app _ hfa, if_pos rfl]
      show alFind (alSet e.registered_messages _ []) _ = some []
      rw [alFind_alSet, if_pos rfl]

/-- The destroy request message is stored by unconditional assignment. -/
theorem register_destroy_spec (cfg : GrpcSettings) (app : String)
    (svc : Service) (ser : Serializer) (dfn : Option String)
    (p : String × String) (st st' : Registry) (rq rs : String)
    (hlf : get_lookup_field_from_serializer ser svc dfn = .ok p)
    (h : register_destroy_serializer_as_message cfg app svc ser dfn st =
      (.ok (rq, rs), st')) :
    msgLookup st' app rq = some [p] := by
  simp only [register_destroy_serializer_as_message, hlf] at h
  cases hfa : alFind st app with
  | none => rw [setMsg, hfa] at h; simp at h
  | some e =>
    rw [setMsg_ok hfa] at h
    simp only [Prod.mk.injEq, Except.ok.injEq] at h
    obtain ⟨⟨hrq, _⟩, hst⟩ := h
    rw [← hst, ← hrq]
    rw [msgLookup_alSet_app _ hfa, if_pos rfl]
    show alFind (alSet e.registered_messages _ [p]) _ = some [p]
    rw [alFind_alSet, if_pos rfl]

/-- C10: the messages the conventional path creates directly — the list
request, retrieve request, destroy request, stream request and the
list-response wrapper — are stored by unconditional assignment: their final
stored value is determined by the arguments alone, so a later registration
under the same name overwrites any earlier field list (unlike
serializer-derived messages, whose registration returns early when the name
exists). -/
theorem claim_C10 :
    (∀ (cfg : GrpcSettings) (app : String) (svc : Service)
      (b lrfn child : String) (mn : Option String) (isReq : Bool)
      (st st' : Registry) (rname : String),
      register_list_message_of_serializer cfg app svc b lrfn child mn isReq st =
        (.ok rname, st') →
      msgLookup st' app rname = some (list_response_fields cfg svc lrfn child)) ∧
    (∀ (cfg : GrpcSettings) (fuel : Nat) (app : String) (svc : Service)
      (ser : Serializer) (st st' : Registry) (rq rs : String),
      register_list_serializer_as_message cfg fuel app svc ser st =
        (.ok (rq, rs), st') →
      msgLookup st' app rq = some []) ∧
    (∀ (cfg : GrpcSettings) (fuel : Nat) (app : String) (svc : Service)
      (ser : Serializer) (rfn : Option String) (p : String × String)
      (st st' : Registry) (rq rs : String),
      get_lookup_field_from_serializer ser svc rfn = .ok p →
      register_retrieve_serializer_as_message cfg fuel app svc ser rfn st =
        (.ok (rq, rs), st') →
      msgLookup st' app rq = some [p]) ∧
    (∀ (cfg : GrpcSettings) (app : String) (svc : Service) (ser : Serializer)
      (dfn : Option String) (p : String × String) (st st' : Registry)
      (rq rs : String),
      get_lookup_field_from_serializer ser svc dfn = .ok p →
      register_destroy_serializer_as_message cfg app svc ser dfn st =
        (.ok (rq, rs), st') →
      msgLookup st' app rq = some [p]) ∧
    (∀ (cfg : GrpcSettings) (fuel : Nat) (app : String) (ser : Serializer)
      (st st' : Registry) (rq rs : String),
      register_stream_serializer_as_message cfg fuel app ser st =
        (.ok (rq, rs), st') →
      msgLookup st' app rq = some []) :=
  ⟨fun cfg app svc b lrfn child mn isReq st st' rname h =>
    (register_list_message_spec cfg app svc b lrfn child mn isReq st st' rname h).2,
   fun cfg fuel app svc ser st st' rq rs h =>
    register_list_request_spec cfg fuel app svc ser st st' rq rs h,
   fun cfg fuel app svc ser rfn p st st' rq rs hlf h =>
    register_retrieve_spec cfg fuel app svc ser rfn p st st' rq rs hlf h,
   fun cfg app svc ser dfn p st st' rq rs hlf h =>
    register_destroy_spec cfg app svc ser dfn p st st' rq rs hlf h,
   fun cfg fuel app ser st st' rq rs h =>
    register_stream_spec cfg fuel app ser st st' rq rs h⟩

/-- A registry in which `WidgetListResponse` already holds a different
field list: re-registration overwrites it. -/
def exRegistryStale : Registry :=
  [("app", ⟨[], [("WidgetListResponse", [("old", "bool")])]⟩)]

theorem claim_C10_witness :
    msgLookup exRegistryStale "app" "WidgetListResponse" =
      some [("old", "bool")] ∧
    register_list_message_of_serializer exCfg "app" exService "Widget"
      "results" "WidgetResponse" none false exRegistryStale =
      (.ok "WidgetListResponse",
        [("app", ⟨[], [("WidgetListResponse",
          [("results", "repeated WidgetResponse")])]⟩)]) ∧
    msgLookup [("app", ⟨[], [("WidgetListResponse",
      [("results", "repeated WidgetResponse")])]⟩)] "app" "WidgetListResponse" =
      some (list_response_fields exCfg exService "results" "WidgetResponse") :=
  ⟨by decide, by decide,
   claim_C10.1 exCfg "app" exService "Widget" "results" "WidgetResponse" none
     false exRegistryStale _ "WidgetListResponse" (by decide)⟩

/-! ## Claim C5 -/

def exC5After : Registry :=
  [("app", ⟨[], []⟩),
   ("myapp", ⟨[("WidgetController",
     [("Act", ⟨⟨false, "ListMyReq"⟩, ⟨false, "google.protobuf.Empty"⟩⟩)])],
     [("MyReq", [("a", "string")]),
      ("ListMyReq", [("results", "repeated MyReq")])]⟩)]

/-- C5 (counterexample): a custom action declared with the explicit
`request_name = "MyReq"` and `use_request_list = true` records the derived
List-wrapped name `"ListMyReq"` as the request message of the method entry,
not the explicit `"MyReq"`: no request-side analogue of the final
`response_name` override exists. -/
theorem claim_C5_counterexample :
    register_custom_action exCfg 10 exService "Act" (.fieldList [("a", "string")])
      (.raw "google.protobuf.Empty") (some "MyReq") none false false true false
      exRegistry = (.ok (), exC5After) ∧
    methodLookup exC5After "myapp" "WidgetController" "Act" =
      some ⟨⟨false, "ListMyReq"⟩, ⟨false, "google.protobuf.Empty"⟩⟩ ∧
    ¬ ("ListMyReq" : String) = "MyReq" := by
  refine ⟨by decide, by decide, by decide⟩

theorem register_method_ok_lookup {APP svcName fn rqMsg rsMsg : String}
    {rqS rsS : Bool} {st st' : Registry}
    (h : register_method_for_custom_action APP svcName fn rqMsg rsMsg rqS rsS st =
      (.ok (), st')) :
    methodLookup st' APP (svcName ++ "Controller") fn =
      some ⟨⟨rqS, rqMsg⟩, ⟨rsS, rsMsg⟩⟩ := by
  cases hfa : alFind st APP with
  | none => rw [register_method_for_custom_action, hfa] at h; simp at h
  | some e =>
    have spec := (register_method_for_custom_action_spec hfa svcName fn rqMsg
      rsMsg rqS rsS).2
    rw [h] at spec
    exact spec

theorem alFind_ensureApp (app : String) (st : Registry) :
    ∃ e, alFind (ensureApp app st) app = some e := by
  rw [ensureApp]
  cases hfa : alFind st app with
  | some e => exact ⟨e, hfa⟩
  | none => exact ⟨⟨[], []⟩, by rw [alFind_alSet, if_pos rfl]⟩

/-- C5 (amended): an explicit `response_name` (non-empty, Python-truthy) is
always recorded verbatim as the method entry's response message — even when
`use_response_list` wraps the registered message under a different name.
An explicit `request_name` is recorded verbatim only on the request side
without `use_request_list` (here: a non-empty literal field list); with
`use_request_list` the recorded request name is the derived List-wrapped
name (see the counterexample). -/
theorem claim_C5 :
    (∀ (cfg : GrpcSettings) (fuel : Nat) (svc : Service) (fn : String)
      (request response : CustomMsg) (rqName : Option String) (rn : String)
      (rqS rsS uReq uRes : Bool) (st st' : Registry),
      ¬ rn = "" →
      register_custom_action cfg fuel svc fn request response rqName (some rn)
        rqS rsS uReq uRes st = (.ok (), st') →
      ∃ e, methodLookup st' (get_app_name_from_service_class svc)
          (svc.serviceName ++ "Controller") fn = some e ∧
        e.response.message = rn) ∧
    (∀ (cfg : GrpcSettings) (fuel : Nat) (svc : Service) (fn : String)
      (items : List (String × String)) (response : CustomMsg) (rn : String)
      (responseName : Option String) (rqS rsS uRes : Bool) (st st' : Registry),
      ¬ items = [] →
      register_custom_action cfg fuel svc fn (.fieldList items) response
        (some rn) responseName rqS rsS false uRes st = (.ok (), st') →
      ∃ e, methodLookup st' (get_app_name_from_service_class svc)
          (svc.serviceName ++ "Controller") fn = some e ∧
        e.request.message = rn) := by
  constructor
  · intro cfg fuel svc fn request response rqName rn rqS rsS uReq uRes st st' hrn h
    simp only [register_custom_action] at h
    rcases h1 : register_message_for_custom_action cfg fuel
        (get_app_name_from_service_class svc) svc.serviceName fn request true
        rqName (ensureApp (get_app_name_from_service_class svc) st)
      with ⟨r1, st1⟩
    rw [h1] at h
    cases r1 with
    | error e => simp at h
    | ok p1 =>
      obtain ⟨rq0, lrfn⟩ := p1
      simp only at h
      rcases h2 : (if uReq = true then
          register_list_message_of_serializer cfg
            (get_app_name_from_service_class svc) svc
            (get_base_name_for_list_message svc.serviceName fn rq0 true) lrfn
            rq0 rqName true st1
        else ((.ok rq0 : Except RegErr String), st1)) with ⟨r2, st2⟩
      rw [h2] at h
      cases r2 with
      | error e => simp at h
      | ok rqMsg =>
        simp only at h
        rcases h3 : register_message_for_custom_action cfg fuel
            (get_app_name_from_service_class svc) svc.serviceName fn response
            false (some rn) st2 with ⟨r3, st3⟩
        rw [h3] at h
        cases r3 with
        | error e => simp at h
        | ok p3 =>
          obtain ⟨rs0, lrfn2⟩ := p3
          simp only at h
          rcases h4 : (if uRes = true then
              register_list_message_of_serializer cfg
                (get_app_name_from_service_class svc) svc
                (get_base_name_for_list_message svc.serviceName fn rs0 false)
                lrfn2 rs0 (some rn) false st3
            else ((.ok rs0 : Except RegErr String), st3)) with ⟨r4, st4⟩
          rw [h4] at h
          cases r4 with
          | error e => simp at h
          | ok rs1 =>
            simp only [pyStrOpt] at h
            rw [if_neg hrn] at h
            simp only at h
            exact ⟨⟨⟨rqS, rqMsg⟩, ⟨rsS, rn⟩⟩, register_method_ok_lookup h, rfl⟩
  · intro cfg fuel svc fn items response rn responseName rqS rsS uRes st st'
      hitems h
    have hlen : ¬ items.length = 0 := fun hh =>
      hitems (List.length_eq_zero.mp hh)
    obtain ⟨e0, he0⟩ := alFind_ensureApp (get_app_name_from_service_class svc) st
    simp only [register_custom_action] at h
    have hcall : register_message_for_custom_action cfg fuel
        (get_app_name_from_service_class svc) svc.serviceName fn
        (.fieldList items) true (some rn)
        (ensureApp (get_app_name_from_service_class svc) st) =
        (.ok (rn, DEFAULT_LIST_FIELD_NAME),
          alSet (ensureApp (get_app_name_from_service_class svc) st)
            (get_app_name_from_service_class svc)
            (AppEntry.mk e0.registered_controllers
              (alSet e0.registered_messages rn items))) := by
      simp only [register_message_for_custom_action, Option.getD_some]
      rw [if_neg hlen, setMsg_ok he0]
    rw [hcall] at h
    simp only at h
    rw [if_neg (by decide : ¬ (false = true))] at h
    simp only at h
    rcases h3 : register_message_for_custom_action cfg fuel
        (get_app_name_from_service_class svc) svc.serviceName fn response
        false responseName
        (alSet (ensureApp (get_app_name_from_service_class svc) st)
          (get_app_name_from_service_class svc)
          (AppEntry.mk e0.registered_controllers
            (alSet e0.registered_messages rn items))) with ⟨r3, st3⟩
    rw [h3] at h
    cases r3 with
    | error e => simp at h
    | ok p3 =>
      obtain ⟨rs0, lrfn2⟩ := p3
      simp only at h
      rcases h4 : (if uRes = true then
          register_list_message_of_serializer cfg
            (get_app_name_from_service_class svc) svc
            (get_base_name_for_list_message svc.serviceName fn rs0 false)
            lrfn2 rs0 responseName false st3
        else ((.ok rs0 : Except RegErr String), st3)) with ⟨r4, st4⟩
      rw [h4] at h
      cases r4 with
      | error e => simp at h
      | ok rs1 =>
        simp only at h
        cases hps : pyStrOpt responseName with
        | some x =>
          rw [hps] at h
          simp only at h
          exact ⟨⟨⟨rqS, rn⟩, ⟨rsS, x⟩⟩, register_method_ok_lookup h, rfl⟩
        | none =>
          rw [hps] at h
          simp only at h
          exact ⟨⟨⟨rqS, rn⟩, ⟨rsS, rs1⟩⟩, register_method_ok_lookup h, rfl⟩

def exC5WitnessAfter : Registry :=
  [("app", ⟨[], []⟩),
   ("myapp", ⟨[("WidgetController",
     [("Act", ⟨⟨false, "MyReq"⟩, ⟨false, "MyResp"⟩⟩)])],
     [("MyReq", [("a", "string")]),
      ("MyResp", [("b", "int32")])]⟩)]

theorem claim_C5_witness :
    register_custom_action exCfg 10 exService "Act"
      (.fieldList [("a", "string")]) (.fieldList [("b", "int32")])
      (some "MyReq") (some "MyResp") false false false false exRegistry =
      (.ok (), exC5WitnessAfter) ∧
    (∃ e, methodLookup exC5WitnessAfter "myapp" "WidgetController" "Act" =
      some e ∧ e.response.message = "MyResp") ∧
    (∃ e, methodLookup exC5WitnessAfter "myapp" "WidgetController" "Act" =
      some e ∧ e.request.message = "MyReq") :=
  ⟨by decide,
   claim_C5.1 exCfg 10 exService "Act" (.fieldList [("a", "string")])
     (.fieldList [("b", "int32")]) (some "MyReq") "MyResp" false false false
     false exRegistry exC5WitnessAfter (by decide) (by decide),
   claim_C5.2 exCfg 10 exService "Act" [("a", "string")]
     (.fieldList [("b", "int32")]) "MyReq" (some "MyResp") false false false
     exRegistry exC5WitnessAfter (by decide) (by decide)⟩

end DSG
